import Mathlib

/-!
Verification of the lab-report bulk-text parser in
`src/frontend/src/components/medical/labresults/TestComponentBulkEntry.tsx`.

The parser is driven by four JavaScript regular expressions
(`REGEX_PATTERNS.FULL_PATTERN`, `TABULAR_PATTERN`, `SIMPLE_PATTERN`,
`CSV_PATTERN`) plus a handful of auxiliary regexes used inside `parseText`.
Every quantifier occurring in those regexes has a single-character-class
body (`\s*`, `[0-9.,]+`, `.+?`, `[^)]*`, ...), so we embed them with a
small backtracking matcher whose star/plus nodes are parameterised by a
character class; the matcher implements the usual JavaScript semantics
(ordered alternation, greedy/lazy quantifiers, capture groups that are
restored on backtracking, `^`-anchoring at position 0, `$` as end of
input).  Numbers are modelled as rationals.
-/

namespace BulkEntry

/-! ## Character classes (transliterated from the regex source) -/

/-- JavaScript `\s` (the whitespace characters relevant to this code base). -/
def jsWsChar (c : Char) : Bool :=
  c == ' ' || c == '\t' || c == '\n' || c == '\r' ||
  c == Char.ofNat 0x0b || c == Char.ofNat 0x0c || c == Char.ofNat 0xa0 ||
  c == Char.ofNat 0x1680 ||
  (0x2000 ≤ c.toNat && c.toNat ≤ 0x200a) ||
  c == Char.ofNat 0x2028 || c == Char.ofNat 0x2029 ||
  c == Char.ofNat 0x202f || c == Char.ofNat 0x205f ||
  c == Char.ofNat 0x3000 || c == Char.ofNat 0xfeff

/-- JavaScript `.` (without the `s` flag): any char except line terminators. -/
def dotChar (c : Char) : Bool :=
  !(c == '\n' || c == '\r' || c == Char.ofNat 0x2028 || c == Char.ofNat 0x2029)

/-- `[0-9]` -/
def digitChar (c : Char) : Bool := '0' ≤ c && c ≤ '9'

/-- `[0-9.,]` — the `NUMERIC_VALUE` class. -/
def numChar (c : Char) : Bool := digitChar c || c == '.' || c == ','

/-- `[a-zA-Z]` -/
def alphaChar (c : Char) : Bool := ('a' ≤ c && c ≤ 'z') || ('A' ≤ c && c ≤ 'Z')

/-- `[a-zA-Z0-9]` -/
def alnumChar (c : Char) : Bool := alphaChar c || digitChar c

/-- `[a-zA-Z0-9/%μ]` — the first branch of `UNIT_PATTERN`. -/
def unitChar (c : Char) : Bool :=
  alnumChar c || c == '/' || c == '%' || c == 'μ'

/-- `[-–]` — the `RANGE_SEPARATOR` class (hyphen or en-dash). -/
def dashChar (c : Char) : Bool := c == '-' || c == Char.ofNat 0x2013

/-- `[<>≤≥]` — the `COMPARISON_OP` class. -/
def compChar (c : Char) : Bool :=
  c == '<' || c == '>' || c == Char.ofNat 0x2264 || c == Char.ofNat 0x2265

/-- `[^)]` -/
def notParenChar (c : Char) : Bool := c != ')'

/-- `[,\t]` — the CSV delimiter class. -/
def csvDelimChar (c : Char) : Bool := c == ',' || c == '\t'

/-- `[^,\t]` -/
def notCsvDelimChar (c : Char) : Bool := !(c == ',' || c == '\t')

/-- `[A-Z0-9]` — the abbreviation class (no `i` flag on that regex). -/
def upperNumChar (c : Char) : Bool := ('A' ≤ c && c ≤ 'Z') || digitChar c

/-- JavaScript `\w` (word characters, used for `\b` boundaries). -/
def wordChar (c : Char) : Bool := alnumChar c || c == '_'

/-! ## A small backtracking regex matcher

Capture state is an association list; `capSet` prepends, so the most
recent write wins and backtracking (which simply reuses the old list)
restores captures, as in JavaScript. -/

/-- Regular-expression ASTs.  Quantifiers take a character class directly,
which is exactly the shape of every quantifier in the source regexes. -/
inductive RE where
  | eps : RE
  | cls (p : Char → Bool) : RE
  | cat (a b : RE) : RE
  | alt (a b : RE) : RE
  | optG (a : RE) : RE
  | starG (p : Char → Bool) : RE
  | starL (p : Char → Bool) : RE
  | plusG (p : Char → Bool) : RE
  | plusL (p : Char → Bool) : RE
  | group (n : Nat) (a : RE) : RE
  | endAnchor : RE

/-- Capture state: group index ↦ captured characters (latest write first). -/
abbrev Caps := List (Nat × List Char)

def capSet (n : Nat) (u : List Char) (caps : Caps) : Caps := (n, u) :: caps

def capFind (caps : Caps) (n : Nat) : Option (List Char) :=
  match caps with
  | [] => none
  | (m, u) :: rest => if m == n then some u else capFind rest n

/-- Greedy backtracking over a character-class run: try dropping `i` chars,
then `i-1`, ..., then `0`. -/
def tryDesc (k : List Char → Caps → Option κ) (caps : Caps) (cs : List Char) :
    Nat → Option κ
  | 0 => k cs caps
  | i+1 =>
    match k (cs.drop (i+1)) caps with
    | some r => some r
    | none => tryDesc k caps cs i

/-- Greedy `+`: like `tryDesc` but never drops zero characters. -/
def tryDescPos (k : List Char → Caps → Option κ) (caps : Caps) (cs : List Char) :
    Nat → Option κ
  | 0 => none
  | i+1 =>
    match k (cs.drop (i+1)) caps with
    | some r => some r
    | none => tryDescPos k caps cs i

/-- Lazy quantifier: try dropping `j` chars, then `j+1`, ... (`fuel` tries). -/
def tryAsc (k : List Char → Caps → Option κ) (caps : Caps) (cs : List Char) :
    Nat → Nat → Option κ
  | _, 0 => none
  | j, fuel+1 =>
    match k (cs.drop j) caps with
    | some r => some r
    | none => tryAsc k caps cs (j+1) fuel

/-- The matcher, in continuation-passing style.  `mrun re cs caps k` tries to
match `re` against a prefix of `cs`, calling `k` with the rest of the input
and the updated captures; alternatives are explored in the JavaScript
priority order. -/
def mrun : RE → List Char → Caps → (List Char → Caps → Option κ) → Option κ
  | .eps, cs, caps, k => k cs caps
  | .cls p, cs, caps, k =>
    match cs with
    | [] => none
    | c :: rest => if p c then k rest caps else none
  | .cat a b, cs, caps, k => mrun a cs caps (fun rest caps1 => mrun b rest caps1 k)
  | .alt a b, cs, caps, k =>
    match mrun a cs caps k with
    | some r => some r
    | none => mrun b cs caps k
  | .optG a, cs, caps, k =>
    match mrun a cs caps k with
    | some r => some r
    | none => k cs caps
  | .starG p, cs, caps, k => tryDesc k caps cs (cs.takeWhile p).length
  | .starL p, cs, caps, k => tryAsc k caps cs 0 ((cs.takeWhile p).length + 1)
  | .plusG p, cs, caps, k => tryDescPos k caps cs (cs.takeWhile p).length
  | .plusL p, cs, caps, k => tryAsc k caps cs 1 (cs.takeWhile p).length
  | .group n a, cs, caps, k =>
    mrun a cs caps (fun rest caps1 =>
      k rest (capSet n (cs.take (cs.length - rest.length)) caps1))
  | .endAnchor, cs, caps, k =>
    match cs with
    | [] => k cs caps
    | _ :: _ => none

/-- Run an (implicitly `^`-anchored) regex at the start of `cs`; returns the
unconsumed input together with the captures of the first match. -/
def execAt (re : RE) (cs : List Char) : Option (List Char × Caps) :=
  mrun re cs [] (fun rest caps => some (rest, caps))

/-- `String.match` for a `^`-anchored regex: just the captures. -/
def execAnchored (re : RE) (s : String) : Option Caps :=
  (execAt re s.toList).map (fun r => r.2)

/-- Captured group as a `String` (like `match[n]`; `none` = `undefined`). -/
def mget (caps : Caps) (n : Nat) : Option String :=
  (capFind caps n).map List.asString

/-- Unanchored search (`String.match` for a flag-less regex): try each start
position from the left; returns (prefix length, match length, captures). -/
def searchFrom (re : RE) : Nat → List Char → Option (Nat × Nat × Caps)
  | i, cs =>
    match execAt re cs with
    | some (rest, caps) => some (i, cs.length - rest.length, caps)
    | none =>
      match cs with
      | [] => none
      | _ :: rest => searchFrom re (i+1) rest

def jsSearch (re : RE) (s : String) : Option (Nat × Nat × Caps) :=
  searchFrom re 0 s.toList

/-! ## The regex table (`REGEX_PATTERNS`) -/

def seqL (l : List RE) : RE := l.foldr RE.cat RE.eps

def altL (a : RE) (l : List RE) : RE := l.foldl RE.alt a

/-- A literal character (these regexes are case-insensitive only through the
`i` flag; punctuation is unaffected by it). -/
def chr (c : Char) : RE := .cls (fun d => d == c)

/-- A literal character under the `i` flag (ASCII case folding). -/
def ichr (c : Char) : RE := .cls (fun d => d.toLower == c.toLower)

/-- A literal word under the `i` flag. -/
def istr (s : String) : RE := seqL (s.toList.map ichr)

/-- `UNIT_PATTERN`: `[a-zA-Z0-9/%μ]+(?:/[a-zA-Z0-9]+)?|x10E\d+/[a-zA-Z]+`. -/
def UNIT_RE : RE :=
  .alt (.cat (.plusG unitChar) (.optG (.cat (chr '/') (.plusG alnumChar))))
    (seqL [ichr 'x', chr '1', chr '0', ichr 'E', .plusG digitChar,
      chr '/', .plusG alphaChar])

/-- `\((?:.*?range.*?:\s*)?([0-9.,]+)\s*[-–]\s*([0-9.,]+).*?\)` —
the numeric min/max branch (groups 4 and 5). -/
def rangePairBranch : RE :=
  seqL [chr '(',
    .optG (seqL [.starL dotChar, istr "range", .starL dotChar, chr ':',
      .starG jsWsChar]),
    .group 4 (.plusG numChar), .starG jsWsChar, .cls dashChar,
    .starG jsWsChar, .group 5 (.plusG numChar), .starL dotChar, chr ')']

/-- `\(([<>≤≥]\s*[0-9.,]+)\)` — the comparison branch (group 6). -/
def rangeCompBranch : RE :=
  seqL [chr '(',
    .group 6 (seqL [.cls compChar, .starG jsWsChar, .plusG numChar]),
    chr ')']

/-- `\(Not\s+Estab\.?\)` (case-insensitive). -/
def notEstabRE : RE :=
  seqL [chr '(', istr "Not", .plusG jsWsChar, istr "Estab", .optG (chr '.'),
    chr ')']

/-- `(\([^)]*\))` — the catch-all parenthetical branch (group 7). -/
def parenFreeBranch : RE :=
  .group 7 (seqL [chr '(', .starG notParenChar, chr ')'])

/-- `REGEX_PATTERNS.FULL_PATTERN`:
`^(.+?):\s*([0-9.,]+)\s*(UNIT)?\s*(?:pair|comp|NotEstab|(\([^)]*\)))?` with
the `i` flag. -/
def FULL_PATTERN : RE :=
  seqL [.group 1 (.plusL dotChar), chr ':', .starG jsWsChar,
    .group 2 (.plusG numChar), .starG jsWsChar,
    .optG (.group 3 UNIT_RE), .starG jsWsChar,
    .optG (altL rangePairBranch [rangeCompBranch, notEstabRE, parenFreeBranch])]

/-- `(normal|high|low|critical|abnormal|borderline)` (the `STATUS_VALUES`
group, here group 7 of the tabular pattern). -/
def statusWordsRE : RE :=
  altL (istr "normal")
    [istr "high", istr "low", istr "critical", istr "abnormal",
      istr "borderline"]

/-- `REGEX_PATTERNS.TABULAR_PATTERN`:
`^(.+?)\s+([0-9.,]+)\s+(UNIT)\s+(?:([0-9.,]+)\s*[-–]\s*([0-9.,]+)|([<>≤≥]\s*[0-9.,]+))\s*(status)?`. -/
def TABULAR_PATTERN : RE :=
  seqL [.group 1 (.plusL dotChar), .plusG jsWsChar,
    .group 2 (.plusG numChar), .plusG jsWsChar,
    .group 3 UNIT_RE, .plusG jsWsChar,
    .alt
      (seqL [.group 4 (.plusG numChar), .starG jsWsChar, .cls dashChar,
        .starG jsWsChar, .group 5 (.plusG numChar)])
      (.group 6 (seqL [.cls compChar, .starG jsWsChar, .plusG numChar])),
    .starG jsWsChar, .optG (.group 7 statusWordsRE)]

/-- `REGEX_PATTERNS.SIMPLE_PATTERN`: `^(.+?)\s+([0-9.,]+)\s+(UNIT)`. -/
def SIMPLE_PATTERN : RE :=
  seqL [.group 1 (.plusL dotChar), .plusG jsWsChar,
    .group 2 (.plusG numChar), .plusG jsWsChar, .group 3 UNIT_RE]

/-- `REGEX_PATTERNS.CSV_PATTERN`:
`^(.+?)[,\t]+([0-9.,]+)[,\t]+(UNIT)(?:[,\t]+([^,\t]*?))?(?:[,\t]+([^,\t]*?))?$`. -/
def CSV_PATTERN : RE :=
  seqL [.group 1 (.plusL dotChar), .plusG csvDelimChar,
    .group 2 (.plusG numChar), .plusG csvDelimChar, .group 3 UNIT_RE,
    .optG (.cat (.plusG csvDelimChar) (.group 4 (.starL notCsvDelimChar))),
    .optG (.cat (.plusG csvDelimChar) (.group 5 (.starL notCsvDelimChar))),
    .endAnchor]

/-- The fallback extractor's regex `^(.+?)\s+([0-9.,]+)`. -/
def FALLBACK_RE : RE :=
  seqL [.group 1 (.plusL dotChar), .plusG jsWsChar, .group 2 (.plusG numChar)]

/-- `^([<>≤≥])\s*([0-9.,]+)$` — re-parse of a captured comparison range. -/
def COMP_RE : RE :=
  seqL [.group 1 (.cls compChar), .starG jsWsChar, .group 2 (.plusG numChar),
    .endAnchor]

/-- `\[(high|low|critical|abnormal|borderline)\]` (case-insensitive). -/
def bracketStatusRE : RE :=
  seqL [chr '[',
    .group 1 (altL (istr "high")
      [istr "low", istr "critical", istr "abnormal", istr "borderline"]),
    chr ']']

/-- `\(([A-Z0-9]+)\)` — inline abbreviation detection (no `i` flag). -/
def abbrRE : RE :=
  seqL [chr '(', .group 1 (.plusG upperNumChar), chr ')']

/-- `\s*\([^)]+\)` — the pattern removed from the test name by
`testName.replace(/\s*\([^)]+\)/, '')`. -/
def parenStripRE : RE :=
  seqL [.starG jsWsChar, chr '(', .plusG notParenChar, chr ')']

/-! ## JavaScript string and number primitives used by `parseText` -/

/-- `String.prototype.trim`. -/
def jsTrim (s : String) : String :=
  (((s.toList.dropWhile jsWsChar).reverse.dropWhile jsWsChar).reverse).asString

/-- `.replace(/,/g, '')`. -/
def stripCommas (s : String) : String :=
  (s.toList.filter (fun c => c != ',')).asString

/-- `.replace(/[,;:]+$/, '')` — strip trailing punctuation from a name. -/
def stripTrailingPunct (s : String) : String :=
  ((s.toList.reverse.dropWhile (fun c => c == ',' || c == ';' || c == ':')).reverse).asString

/-- `.replace(/[()]/g, '')`. -/
def stripParens (s : String) : String :=
  (s.toList.filter (fun c => !(c == '(' || c == ')'))).asString

/-- `String.prototype.toLowerCase` (ASCII, which is all this code compares). -/
def jsToLower (s : String) : String := (s.toList.map Char.toLower).asString

/-- `String.prototype.includes`. -/
def strContains (s sub : String) : Bool :=
  (List.range (s.toList.length + 1)).any
    (fun i => sub.toList.isPrefixOf (s.toList.drop i))

def digitsToNat (l : List Char) : Nat :=
  l.foldl (fun a c => a * 10 + (c.toNat - '0'.toNat)) 0

/-- The optional sign at the head of a numeric literal. -/
def readSign (cs : List Char) : ℚ × List Char :=
  match cs with
  | [] => (1, [])
  | c :: r => if c = '-' then (-1, r) else if c = '+' then (1, r) else (1, c :: r)

/-- `parseFloat`: skips leading whitespace, then parses the longest prefix of
the form `[+-]? digits [. digits] [eE [+-]? digits]`; `none` models `NaN`.
(Notably it parses a numeric *prefix*: `parseFloat("70-100") = 70`, and
`parseFloat("Normal")` is `NaN`.) -/
def jsParseFloat (s : String) : Option ℚ :=
  let cs := s.toList.dropWhile jsWsChar
  let sign := readSign cs
  let ip := sign.2.takeWhile digitChar
  let cs1 := sign.2.dropWhile digitChar
  let fracRest : List Char × List Char :=
    match cs1 with
    | '.' :: r => (r.takeWhile digitChar, r.dropWhile digitChar)
    | _ => ([], cs1)
  if ip.isEmpty && fracRest.1.isEmpty then none
  else
    let mant : ℚ :=
      (digitsToNat ip : ℚ) +
        (digitsToNat fracRest.1 : ℚ) / ((10 ^ fracRest.1.length : ℕ) : ℚ)
    let expo : Int :=
      match fracRest.2 with
      | e :: r =>
        if e == 'e' || e == 'E' then
          match r with
          | '-' :: r2 =>
            let d := r2.takeWhile digitChar
            if d.isEmpty then 0 else -(digitsToNat d : Int)
          | '+' :: r2 =>
            let d := r2.takeWhile digitChar
            if d.isEmpty then 0 else (digitsToNat d : Int)
          | _ =>
            let d := r.takeWhile digitChar
            if d.isEmpty then 0 else (digitsToNat d : Int)
        else 0
      | [] => 0
    some (sign.1 * mant *
      (if 0 ≤ expo then ((10 ^ expo.toNat : ℕ) : ℚ)
        else 1 / ((10 ^ (-expo).toNat : ℕ) : ℚ)))

/-- JavaScript truthiness of a possibly-`undefined` string. -/
def truthyStr : Option String → Bool
  | none => false
  | some s => s != ""

/-- JavaScript truthiness of a possibly-`undefined` number (`0` is falsy). -/
def truthyNum : Option ℚ → Bool
  | none => false
  | some q => q != 0

/-! ## The auxiliary searches inside `parseText` -/

/-- The plain-text status words, in the source's alternation order. -/
def statusWords : List String :=
  ["normal", "high", "low", "critical", "abnormal", "borderline"]

/-- Case-insensitively match `w` against a prefix of `cs`; returns the matched
characters and the rest. -/
def icaseTake : List Char → List Char → Option (List Char × List Char)
  | [], cs => some ([], cs)
  | _ :: _, [] => none
  | w :: ws, c :: cs =>
    if c.toLower == w.toLower then
      (icaseTake ws cs).map (fun mr => (c :: mr.1, mr.2))
    else none

/-- Right-hand `\b`: end of input or a non-word character. -/
def rightBoundaryOk : List Char → Bool
  | [] => true
  | c :: _ => !wordChar c

/-- At a fixed position, try the status alternatives in order (the regex
backtracks to the next alternative if the trailing `\b` fails). -/
def tryStatusWords : List String → List Char → Option String
  | [], _ => none
  | w :: ws, cs =>
    match icaseTake w.toList cs with
    | some mr => if rightBoundaryOk mr.2 then some mr.1.asString else tryStatusWords ws cs
    | none => tryStatusWords ws cs

def wordStatusAux : Option Char → List Char → Option String
  | _, [] => none
  | prev, c :: rest =>
    let leftOk : Bool :=
      match prev with
      | none => true
      | some p => !wordChar p
    match (if leftOk then tryStatusWords statusWords (c :: rest) else none) with
    | some w => some w
    | none => wordStatusAux (some c) rest

/-- `trimmedLine.match(/\b(normal|high|low|critical|abnormal|borderline)\b/i)`:
the text matched by group 1 of the first match, if any. -/
def wordStatusSearch (s : String) : Option String := wordStatusAux none s.toList

/-- `trimmedLine.match(/\[(high|low|critical|abnormal|borderline)\]/i)`,
group 1. -/
def bracketStatusSearch (s : String) : Option String :=
  (jsSearch bracketStatusRE s).bind (fun r => mget r.2.2 1)

/-- `testName.match(/\(([A-Z0-9]+)\)/)`, group 1. -/
def abbrSearch (s : String) : Option String :=
  (jsSearch abbrRE s).bind (fun r => mget r.2.2 1)

/-- `testName.replace(/\s*\([^)]+\)/, '')` — remove the first match. -/
def replaceFirstParen (s : String) : String :=
  match jsSearch parenStripRE s with
  | some r => ((s.toList.take r.1) ++ (s.toList.drop (r.1 + r.2.1))).asString
  | none => s

/-! ## The output record (`ParsedTestComponent`) -/

structure Parsed where
  test_name : String
  abbreviation : Option String
  canonical_test_name : Option String
  value : ℚ
  unit : String
  ref_range_min : Option ℚ
  ref_range_max : Option ℚ
  ref_range_text : Option String
  status : Option String
  category : Option String
  loinc_code : Option String
  original_line : String
  confidence : ℚ
  issues : List String
deriving Repr, DecidableEq

/-- The `parseSettings` object. -/
structure Settings where
  detectHeaders : Bool
  assumeFirstColumnIsName : Bool
  detectUnits : Bool
  detectRanges : Bool
  skipEmptyLines : Bool
  caseSensitive : Bool
deriving Repr, DecidableEq

/-! ## The per-line extraction (`parseText`, lines 459–628) -/

/-- Reference-range resolution from the captured groups (lines 497–528):
`match[4]`/`match[5]` as a numeric pair, else `match[6]` as a comparison
bound, else `match[7]` as free parenthetical text. -/
def applyRange (caps : Caps) (pc : Parsed × ℚ) : Parsed × ℚ :=
  if truthyStr (mget caps 4) && truthyStr (mget caps 5) then
    match jsParseFloat (stripCommas ((mget caps 4).getD "")),
        jsParseFloat (stripCommas ((mget caps 5).getD "")) with
    | some mn, some mx =>
      ({ pc.1 with ref_range_min := some mn, ref_range_max := some mx },
        pc.2 + 1/5)
    | _, _ => pc
  else if truthyStr (mget caps 6) then
    let compText := jsTrim ((mget caps 6).getD "")
    let p := { pc.1 with ref_range_text := some compText }
    let p1 :=
      match execAnchored COMP_RE compText with
      | some ccaps =>
        match jsParseFloat (stripCommas ((mget ccaps 2).getD "")) with
        | some num =>
          let op := (mget ccaps 1).getD ""
          if op == "<" || op == "≤" then { p with ref_range_max := some num }
          else if op == ">" || op == "≥" then { p with ref_range_min := some num }
          else p
        | none => p
      | none => p
    (p1, pc.2 + 1/10)
  else if truthyStr (mget caps 7) then
    ({ pc.1 with ref_range_text := some (jsTrim (stripParens ((mget caps 7).getD ""))) },
      pc.2 + 1/20)
  else pc

/-- The `"(Not Estab.)"` whole-line check (lines 530–537); note the guard
uses JavaScript truthiness, so numeric bounds equal to `0` count as absent. -/
def applyNotEstab (t : String) (pc : Parsed × ℚ) : Parsed × ℚ :=
  if !truthyNum pc.1.ref_range_min && !truthyNum pc.1.ref_range_max
      && !truthyStr pc.1.ref_range_text then
    if (jsSearch notEstabRE t).isSome then
      ({ pc.1 with ref_range_text := some "Not Estab." }, pc.2 + 1/10)
    else pc
  else pc

/-- Explicit status tokens: bracketed first, then a bare word (lines 539–551). -/
def applyStatusTokens (t : String) (pc : Parsed × ℚ) : Parsed × ℚ :=
  match bracketStatusSearch t with
  | some w => ({ pc.1 with status := some (jsToLower w) }, pc.2 + 1/10)
  | none =>
    match wordStatusSearch t with
    | some w => ({ pc.1 with status := some (jsToLower w) }, pc.2 + 1/20)
    | none => pc

/-- Inline abbreviation detection on the captured name (lines 553–559). -/
def applyAbbrev (testName : String) (pc : Parsed × ℚ) : Parsed × ℚ :=
  match abbrSearch testName with
  | some ab =>
    ({ pc.1 with
        abbreviation := some ab,
        test_name := jsTrim (replaceFirstParen testName) },
      pc.2 + 1/20)
  | none => pc

/-- Auto-derived status from value vs. reference range (lines 561–575). -/
def applyAutoStatus (pc : Parsed × ℚ) : Parsed × ℚ :=
  if !truthyStr pc.1.status then
    match pc.1.ref_range_min, pc.1.ref_range_max with
    | some mn, some mx =>
      let st := if pc.1.value > mx then "high"
        else if pc.1.value < mn then "low" else "normal"
      ({ pc.1 with status := some st }, pc.2)
    | none, some mx =>
      ({ pc.1 with status := some (if pc.1.value > mx then "high" else "normal") }, pc.2)
    | some mn, none =>
      ({ pc.1 with status := some (if pc.1.value < mn then "low" else "normal") }, pc.2)
    | none, none => pc
  else pc

/-- The freshly created record (lines 479–486). -/
def initRecord (t testName unit : String) (value : ℚ) : Parsed :=
  { test_name := testName, abbreviation := none,
    canonical_test_name := none, value := value, unit := unit,
    ref_range_min := none, ref_range_max := none,
    ref_range_text := none, status := none, category := none,
    loinc_code := none, original_line := t, confidence := 0,
    issues := [] }

/-- Confidence seeding from pattern completeness (lines 488–491). -/
def seedConf (isFull : Bool) (unit : String) : ℚ :=
  1/2 + (if unit != "" then 1/5 else 0) + (if isFull then 3/10 else 0)

/-- Record construction once name, unit and value have been extracted
(lines 479–577): initial record, confidence seeding, then the range /
"Not Estab." / status / abbreviation / auto-status stages, capping the
confidence at `1.0`. -/
def buildCore (isFull : Bool) (caps : Caps) (t testName unit : String)
    (value : ℚ) : Parsed :=
  let pc :=
    applyAutoStatus (applyAbbrev testName
      (applyStatusTokens t (applyNotEstab t
        (applyRange caps (initRecord t testName unit value, seedConf isFull unit)))))
  { pc.1 with confidence := min pc.2 1 }

/-- The match-processing body of the pattern loop (lines 466–578): given the
captures of whichever pattern matched, build the record, seed confidence,
resolve range and status.  `none` models `continue` (empty name, missing
value, or `NaN`). -/
def buildFromMatch (isFull : Bool) (caps : Caps) (t : String) : Option Parsed :=
  match mget caps 1 with
  | none => none
  | some m1 =>
    let testName := stripTrailingPunct (jsTrim m1)
    match mget caps 2 with
    | none => none
    | some m2 =>
      let valueStr := stripCommas m2
      let unit : String :=
        match mget caps 3 with
        | some m3 => jsTrim m3
        | none => ""
      if testName == "" || valueStr == "" then none
      else
        match jsParseFloat valueStr with
        | none => none
        | some value => some (buildCore isFull caps t testName unit value)

/-- One step of the ordered pattern loop: match, extract, or fall through. -/
def tryPat (isFull : Bool) (re : RE) (t : String) (next : Option Parsed) :
    Option Parsed :=
  match execAnchored re t with
  | some caps =>
    match buildFromMatch isFull caps t with
    | some p => some p
    | none => next
  | none => next

/-- The ordered pattern loop (`Object.entries(patterns)` order:
full → tabular → simple → csv). -/
def tryPatterns (t : String) : Option Parsed :=
  tryPat true FULL_PATTERN t
    (tryPat false TABULAR_PATTERN t
      (tryPat false SIMPLE_PATTERN t
        (tryPat false CSV_PATTERN t none)))

/-- The fallback extractor (lines 582–598). -/
def fallbackE (t : String) : Option Parsed :=
  match execAnchored FALLBACK_RE t with
  | none => none
  | some caps =>
    match jsParseFloat (stripCommas ((mget caps 2).getD "")) with
    | none => none
    | some value =>
      some
        { test_name := stripTrailingPunct (jsTrim ((mget caps 1).getD "")),
          abbreviation := none, canonical_test_name := none, value := value,
          unit := "", ref_range_min := none, ref_range_max := none,
          ref_range_text := none, status := none, category := none,
          loinc_code := none, original_line := t, confidence := 1/5,
          issues := ["Could not detect unit", "Could not detect reference range"] }

/-- Validator, name-length check (lines 605–608). -/
def vNameCheck (p : Parsed) : Parsed :=
  if p.test_name.length < 2 then
    { p with
      issues := p.issues ++ ["Test name too short"],
      confidence := max 0 (p.confidence - 3/10) }
  else p

/-- Validator, missing-unit check (lines 610–612); note the push is
unconditional whenever `unit` is empty. -/
def vUnitCheck (p : Parsed) : Parsed :=
  if p.unit == "" then { p with issues := p.issues ++ ["Unit not detected"] }
  else p

/-- Validator, missing-range check (lines 614–616). -/
def vRangeCheck (p : Parsed) : Parsed :=
  if !truthyNum p.ref_range_min && !truthyNum p.ref_range_max
      && !truthyStr p.ref_range_text then
    { p with issues := p.issues ++ ["Reference range not detected"] }
  else p

/-- Validator, issue-count confidence reduction (lines 618–622). -/
def vIssueReduce (p : Parsed) : Parsed :=
  if 0 < p.issues.length then
    let reduced := max (1/10) (p.confidence - min ((p.issues.length : ℚ) * (3/20)) (1/2))
    { p with confidence := reduced }
  else p

/-- The validator / confidence finalizer (lines 604–622). -/
def validateE (p : Parsed) : Parsed :=
  vIssueReduce (vRangeCheck (vUnitCheck (vNameCheck p)))

/-- The record produced for a line before validation: the pattern loop,
falling back to the minimal extractor. -/
def preParse (t : String) : Option Parsed :=
  match tryPatterns t with
  | some p => some p
  | none => fallbackE t

/-- Everything `parseText` does to one (already trimmed, non-empty,
non-header) line. -/
def parseLineCore (t : String) : Option Parsed :=
  (preParse t).map validateE

/-- Per raw line: trim, skip if blank, otherwise run the extraction. -/
def processLine (line : String) : Option Parsed :=
  let t := jsTrim line
  if t == "" then none else parseLineCore t

/-- The header keyword list (line 452). -/
def headerKeywords : List String :=
  ["test", "name", "value", "result", "unit", "range", "status", "reference"]

def isHeaderLine (t : String) : Bool :=
  headerKeywords.any (fun kw => strContains (jsToLower t) kw)

/-- One `forEach` step of `parseText` (`il.1` is the index in the filtered
line list). -/
def parseTextStep (st : Settings) (acc : List Parsed × Nat) (il : Nat × String) :
    List Parsed × Nat :=
  let t := jsTrim il.2
  if t == "" then acc
  else if st.detectHeaders && il.1 == 0 && isHeaderLine t then acc
  else
    match parseLineCore t with
    | some r => (acc.1 ++ [r], acc.2)
    | none => (acc.1, acc.2 + 1)

/-- `text.split('\n')`: cut the text at every newline character. -/
def splitNl (s : String) : List String :=
  let r := s.toList.foldl
    (fun (acc : List String × List Char) c =>
      if c = '\n' then (acc.1 ++ [acc.2.reverse.asString], [])
      else (acc.1, c :: acc.2))
    ([], [])
  r.1 ++ [r.2.reverse.asString]

/-- The batch parse `parseText(text)` (lines 423–632): returns the component
list and the failed-line count. -/
def parseText (st : Settings) (text : String) : List Parsed × Nat :=
  let lines :=
    (splitNl text).filter
      (fun l => if st.skipEmptyLines then 0 < (jsTrim l).length else true)
  lines.enum.foldl (parseTextStep st) ([], 0)

/-! ## Standard-test enrichment (`enrichWithStandardizedTests`) -/

/-- A `testLibrary` catalog entry, as consumed by the enricher. -/
structure StandardizedTest where
  test_name : String
  abbreviation : Option String
  default_unit : Option String
  category : Option String
  test_code : Option String
deriving Repr, DecidableEq

/-- Enrichment of one record (lines 636–675).  `lookup` abstracts
`searchTests(name, 1)` (the best catalog match or none). -/
def enrichOne (lookup : String → Option StandardizedTest) (c : Parsed) : Parsed :=
  match lookup c.test_name with
  | none => c
  | some st =>
    let c1 := { c with canonical_test_name := some st.test_name }
    let c2 :=
      if !truthyStr c1.abbreviation && truthyStr st.abbreviation then
        { c1 with abbreviation := st.abbreviation }
      else c1
    let c3 :=
      if c2.unit == "" && truthyStr st.default_unit then
        { c2 with
          unit := st.default_unit.getD "",
          issues := c2.issues.erase "Unit not detected" }
      else c2
    let c4 :=
      if truthyStr st.category then { c3 with category := st.category } else c3
    if truthyStr st.test_code then { c4 with loinc_code := st.test_code } else c4

def enrichWithStandardizedTests (lookup : String → Option StandardizedTest)
    (comps : List Parsed) : List Parsed :=
  comps.map (enrichOne lookup)

/-- The full batch pipeline as invoked by the component: parse, then enrich
(the auto-parse `useEffect` / `handleManualParse` path). -/
def parseAll (lookup : String → Option StandardizedTest) (st : Settings)
    (text : String) : List Parsed × Nat :=
  let r := parseText st text
  (enrichWithStandardizedTests lookup r.1, r.2)

/-! ## Frame lemmas: which fields each stage leaves untouched -/

/-- The auto-derived status as a function of the bounds and the value
(lines 561–575, `high` checked before `low`). -/
def autoStatusOf (mn mx : Option ℚ) (v : ℚ) : Option String :=
  match mn, mx with
  | some a, some b =>
    some (if v > b then "high" else if v < a then "low" else "normal")
  | none, some b => some (if v > b then "high" else "normal")
  | some a, none => some (if v < a then "low" else "normal")
  | none, none => none

/-- The captures of `FULL_PATTERN` on the C1 witness line. -/
def c1caps : Caps :=
  [(5, ['1', '0', '0']), (4, ['7', '0']), (3, ['m', 'g', '/', 'd', 'L']),
    (2, ['8', '5']), (1, ['G', 'l', 'u', 'c', 'o', 's', 'e'])]

/-- Captures of `TABULAR_PATTERN` on the C3 witness line. -/
def c3caps : Caps :=
  [(6, ['<', ' ', '0', '.', '4', '1']), (3, ['/', 'n', 'l']),
    (2, ['0', '.', '1', '9']),
    (1, ['E', 'o', 's', 'i', 'n', 'o', 'p', 'h', 'i', 'l', 'e', ' ', 'a', 'b',
      's', '.'])]

/-- Captures of the inner comparison re-parse on `"< 0.41"`. -/
def c3ccaps : Caps := [(2, ['0', '.', '4', '1']), (1, ['<'])]

/-- A small concrete catalog hit used by the C8 witness. -/
def glucoseEntry : StandardizedTest :=
  { test_name := "Glucose", abbreviation := some "GLU",
    default_unit := some "mg/dL", category := some "chemistry",
    test_code := some "2345-7" }

def lookup1 (s : String) : Option StandardizedTest :=
  if s = "Glucose" then some glucoseEntry else none

def crec : Parsed :=
  { test_name := "Glucose", abbreviation := none, canonical_test_name := none,
    value := 5, unit := "", ref_range_min := none, ref_range_max := none,
    ref_range_text := none, status := none, category := none,
    loinc_code := none, original_line := "Glucose 5", confidence := 1/5,
    issues := ["Could not detect unit", "Could not detect reference range"] }

def ConsumedOK : RE → List Char → Prop
  | .eps, u => u = []
  | .cls p, u => ∃ c, u = [c] ∧ p c = true
  | .cat a b, u => ∃ u1 u2, u = u1 ++ u2 ∧ ConsumedOK a u1 ∧ ConsumedOK b u2
  | .alt a b, u => ConsumedOK a u ∨ ConsumedOK b u
  | .optG a, u => ConsumedOK a u ∨ u = []
  | .starG p, u => u.all p = true
  | .starL p, u => u.all p = true
  | .plusG p, u => u.all p = true ∧ u ≠ []
  | .plusL p, u => u.all p = true ∧ u ≠ []
  | .group _ a, u => ConsumedOK a u
  | .endAnchor, u => u = []

def groupOK (n : Nat) (P : Char → Bool) : RE → Prop
  | .cat a b => groupOK n P a ∧ groupOK n P b
  | .alt a b => groupOK n P a ∧ groupOK n P b
  | .optG a => groupOK n P a
  | .group m a =>
    (m = n → ∀ u, ConsumedOK a u → u.all P = true) ∧ groupOK n P a
  | _ => True

def CapsOK (n : Nat) (P : Char → Bool) (caps : Caps) : Prop :=
  ∀ u, capFind caps n = some u → u.all P = true

/-- Syntactic check: `re` contains no capture group at all. -/
def hasGroup : RE → Bool
  | .cat a b => hasGroup a || hasGroup b
  | .alt a b => hasGroup a || hasGroup b
  | .optG a => hasGroup a
  | .group _ _ => true
  | _ => false

def w2rec : Parsed :=
  { test_name := "AB", abbreviation := none, canonical_test_name := none,
    value := 5, unit := "u", ref_range_min := none, ref_range_max := none,
    ref_range_text := none, status := none, category := none,
    loinc_code := none, original_line := "AB 5 u", confidence := 7/10,
    issues := [] }

def w10rec : Parsed :=
  { test_name := "AB", abbreviation := none, canonical_test_name := none,
    value := 5, unit := "u", ref_range_min := none, ref_range_max := none,
    ref_range_text := none, status := none, category := none,
    loinc_code := none, original_line := "AB 5 u", confidence := 11/20,
    issues := ["Reference range not detected"] }

def w0settings : Settings := ⟨true, true, true, true, true, false⟩

lemma applyRange_status (caps : Caps) (pc : Parsed × ℚ) :
    (applyRange caps pc).1.status = pc.1.status := by
  simp only [applyRange]; repeat' split
  all_goals rfl

lemma applyRange_value (caps : Caps) (pc : Parsed × ℚ) :
    (applyRange caps pc).1.value = pc.1.value := by
  simp only [applyRange]; repeat' split
  all_goals rfl

lemma applyRange_original_line (caps : Caps) (pc : Parsed × ℚ) :
    (applyRange caps pc).1.original_line = pc.1.original_line := by
  simp only [applyRange]; repeat' split
  all_goals rfl

lemma applyRange_conf_ge (caps : Caps) (pc : Parsed × ℚ) :
    pc.2 ≤ (applyRange caps pc).2 := by
  simp only [applyRange]; repeat' split
  all_goals (simp; try linarith)

lemma applyNotEstab_min (t : String) (pc : Parsed × ℚ) :
    (applyNotEstab t pc).1.ref_range_min = pc.1.ref_range_min := by
  simp only [applyNotEstab]; repeat' split
  all_goals rfl

lemma applyNotEstab_max (t : String) (pc : Parsed × ℚ) :
    (applyNotEstab t pc).1.ref_range_max = pc.1.ref_range_max := by
  simp only [applyNotEstab]; repeat' split
  all_goals rfl

lemma applyNotEstab_status (t : String) (pc : Parsed × ℚ) :
    (applyNotEstab t pc).1.status = pc.1.status := by
  simp only [applyNotEstab]; repeat' split
  all_goals rfl

lemma applyNotEstab_value (t : String) (pc : Parsed × ℚ) :
    (applyNotEstab t pc).1.value = pc.1.value := by
  simp only [applyNotEstab]; repeat' split
  all_goals rfl

lemma applyNotEstab_original_line (t : String) (pc : Parsed × ℚ) :
    (applyNotEstab t pc).1.original_line = pc.1.original_line := by
  simp only [applyNotEstab]; repeat' split
  all_goals rfl

lemma applyNotEstab_conf_ge (t : String) (pc : Parsed × ℚ) :
    pc.2 ≤ (applyNotEstab t pc).2 := by
  simp only [applyNotEstab]; repeat' split
  all_goals (simp; try linarith)

lemma applyStatusTokens_of_none (t : String) (pc : Parsed × ℚ)
    (hbr : bracketStatusSearch t = none) (hw : wordStatusSearch t = none) :
    applyStatusTokens t pc = pc := by
  simp [applyStatusTokens, hbr, hw]

lemma applyStatusTokens_min (t : String) (pc : Parsed × ℚ) :
    (applyStatusTokens t pc).1.ref_range_min = pc.1.ref_range_min := by
  simp only [applyStatusTokens]; repeat' split
  all_goals rfl

lemma applyStatusTokens_max (t : String) (pc : Parsed × ℚ) :
    (applyStatusTokens t pc).1.ref_range_max = pc.1.ref_range_max := by
  simp only [applyStatusTokens]; repeat' split
  all_goals rfl

lemma applyStatusTokens_value (t : String) (pc : Parsed × ℚ) :
    (applyStatusTokens t pc).1.value = pc.1.value := by
  simp only [applyStatusTokens]; repeat' split
  all_goals rfl

lemma applyStatusTokens_original_line (t : String) (pc : Parsed × ℚ) :
    (applyStatusTokens t pc).1.original_line = pc.1.original_line := by
  simp only [applyStatusTokens]; repeat' split
  all_goals rfl

lemma applyStatusTokens_conf_ge (t : String) (pc : Parsed × ℚ) :
    pc.2 ≤ (applyStatusTokens t pc).2 := by
  simp only [applyStatusTokens]; repeat' split
  all_goals (simp; try linarith)

lemma applyAbbrev_status (s : String) (pc : Parsed × ℚ) :
    (applyAbbrev s pc).1.status = pc.1.status := by
  simp only [applyAbbrev]; repeat' split
  all_goals rfl

lemma applyAbbrev_min (s : String) (pc : Parsed × ℚ) :
    (applyAbbrev s pc).1.ref_range_min = pc.1.ref_range_min := by
  simp only [applyAbbrev]; repeat' split
  all_goals rfl

lemma applyAbbrev_max (s : String) (pc : Parsed × ℚ) :
    (applyAbbrev s pc).1.ref_range_max = pc.1.ref_range_max := by
  simp only [applyAbbrev]; repeat' split
  all_goals rfl

lemma applyAbbrev_value (s : String) (pc : Parsed × ℚ) :
    (applyAbbrev s pc).1.value = pc.1.value := by
  simp only [applyAbbrev]; repeat' split
  all_goals rfl

lemma applyAbbrev_original_line (s : String) (pc : Parsed × ℚ) :
    (applyAbbrev s pc).1.original_line = pc.1.original_line := by
  simp only [applyAbbrev]; repeat' split
  all_goals rfl

lemma applyAbbrev_conf_ge (s : String) (pc : Parsed × ℚ) :
    pc.2 ≤ (applyAbbrev s pc).2 := by
  simp only [applyAbbrev]; repeat' split
  all_goals (simp; try linarith)

lemma applyAutoStatus_min (pc : Parsed × ℚ) :
    (applyAutoStatus pc).1.ref_range_min = pc.1.ref_range_min := by
  simp only [applyAutoStatus]; repeat' split
  all_goals rfl

lemma applyAutoStatus_max (pc : Parsed × ℚ) :
    (applyAutoStatus pc).1.ref_range_max = pc.1.ref_range_max := by
  simp only [applyAutoStatus]; repeat' split
  all_goals rfl

lemma applyAutoStatus_value (pc : Parsed × ℚ) :
    (applyAutoStatus pc).1.value = pc.1.value := by
  simp only [applyAutoStatus]; repeat' split
  all_goals rfl

lemma applyAutoStatus_original_line (pc : Parsed × ℚ) :
    (applyAutoStatus pc).1.original_line = pc.1.original_line := by
  simp only [applyAutoStatus]; repeat' split
  all_goals rfl

lemma applyAutoStatus_conf (pc : Parsed × ℚ) :
    (applyAutoStatus pc).2 = pc.2 := by
  simp only [applyAutoStatus]; repeat' split
  all_goals rfl

lemma vNameCheck_status (p : Parsed) : (vNameCheck p).status = p.status := by
  simp only [vNameCheck]; repeat' split
  all_goals rfl

lemma vNameCheck_min (p : Parsed) : (vNameCheck p).ref_range_min = p.ref_range_min := by
  simp only [vNameCheck]; repeat' split
  all_goals rfl

lemma vNameCheck_max (p : Parsed) : (vNameCheck p).ref_range_max = p.ref_range_max := by
  simp only [vNameCheck]; repeat' split
  all_goals rfl

lemma vNameCheck_text (p : Parsed) : (vNameCheck p).ref_range_text = p.ref_range_text := by
  simp only [vNameCheck]; repeat' split
  all_goals rfl

lemma vNameCheck_value (p : Parsed) : (vNameCheck p).value = p.value := by
  simp only [vNameCheck]; repeat' split
  all_goals rfl

lemma vNameCheck_original_line (p : Parsed) : (vNameCheck p).original_line = p.original_line := by
  simp only [vNameCheck]; repeat' split
  all_goals rfl

lemma vNameCheck_test_name (p : Parsed) : (vNameCheck p).test_name = p.test_name := by
  simp only [vNameCheck]; repeat' split
  all_goals rfl

lemma vNameCheck_unit (p : Parsed) : (vNameCheck p).unit = p.unit := by
  simp only [vNameCheck]; repeat' split
  all_goals rfl

lemma vUnitCheck_status (p : Parsed) : (vUnitCheck p).status = p.status := by
  simp only [vUnitCheck]; repeat' split
  all_goals rfl

lemma vUnitCheck_min (p : Parsed) : (vUnitCheck p).ref_range_min = p.ref_range_min := by
  simp only [vUnitCheck]; repeat' split
  all_goals rfl

lemma vUnitCheck_max (p : Parsed) : (vUnitCheck p).ref_range_max = p.ref_range_max := by
  simp only [vUnitCheck]; repeat' split
  all_goals rfl

lemma vUnitCheck_text (p : Parsed) : (vUnitCheck p).ref_range_text = p.ref_range_text := by
  simp only [vUnitCheck]; repeat' split
  all_goals rfl

lemma vUnitCheck_value (p : Parsed) : (vUnitCheck p).value = p.value := by
  simp only [vUnitCheck]; repeat' split
  all_goals rfl

lemma vUnitCheck_original_line (p : Parsed) : (vUnitCheck p).original_line = p.original_line := by
  simp only [vUnitCheck]; repeat' split
  all_goals rfl

lemma vUnitCheck_test_name (p : Parsed) : (vUnitCheck p).test_name = p.test_name := by
  simp only [vUnitCheck]; repeat' split
  all_goals rfl

lemma vUnitCheck_unit (p : Parsed) : (vUnitCheck p).unit = p.unit := by
  simp only [vUnitCheck]; repeat' split
  all_goals rfl

lemma vRangeCheck_status (p : Parsed) : (vRangeCheck p).status = p.status := by
  simp only [vRangeCheck]; repeat' split
  all_goals rfl

lemma vRangeCheck_min (p : Parsed) : (vRangeCheck p).ref_range_min = p.ref_range_min := by
  simp only [vRangeCheck]; repeat' split
  all_goals rfl

lemma vRangeCheck_max (p : Parsed) : (vRangeCheck p).ref_range_max = p.ref_range_max := by
  simp only [vRangeCheck]; repeat' split
  all_goals rfl

lemma vRangeCheck_text (p : Parsed) : (vRangeCheck p).ref_range_text = p.ref_range_text := by
  simp only [vRangeCheck]; repeat' split
  all_goals rfl

lemma vRangeCheck_value (p : Parsed) : (vRangeCheck p).value = p.value := by
  simp only [vRangeCheck]; repeat' split
  all_goals rfl

lemma vRangeCheck_original_line (p : Parsed) : (vRangeCheck p).original_line = p.original_line := by
  simp only [vRangeCheck]; repeat' split
  all_goals rfl

lemma vRangeCheck_test_name (p : Parsed) : (vRangeCheck p).test_name = p.test_name := by
  simp only [vRangeCheck]; repeat' split
  all_goals rfl

lemma vRangeCheck_unit (p : Parsed) : (vRangeCheck p).unit = p.unit := by
  simp only [vRangeCheck]; repeat' split
  all_goals rfl

lemma vIssueReduce_status (p : Parsed) : (vIssueReduce p).status = p.status := by
  simp only [vIssueReduce]; repeat' split
  all_goals rfl

lemma vIssueReduce_min (p : Parsed) : (vIssueReduce p).ref_range_min = p.ref_range_min := by
  simp only [vIssueReduce]; repeat' split
  all_goals rfl

lemma vIssueReduce_max (p : Parsed) : (vIssueReduce p).ref_range_max = p.ref_range_max := by
  simp only [vIssueReduce]; repeat' split
  all_goals rfl

lemma vIssueReduce_text (p : Parsed) : (vIssueReduce p).ref_range_text = p.ref_range_text := by
  simp only [vIssueReduce]; repeat' split
  all_goals rfl

lemma vIssueReduce_value (p : Parsed) : (vIssueReduce p).value = p.value := by
  simp only [vIssueReduce]; repeat' split
  all_goals rfl

lemma vIssueReduce_original_line (p : Parsed) : (vIssueReduce p).original_line = p.original_line := by
  simp only [vIssueReduce]; repeat' split
  all_goals rfl

lemma vIssueReduce_test_name (p : Parsed) : (vIssueReduce p).test_name = p.test_name := by
  simp only [vIssueReduce]; repeat' split
  all_goals rfl

lemma vIssueReduce_unit (p : Parsed) : (vIssueReduce p).unit = p.unit := by
  simp only [vIssueReduce]; repeat' split
  all_goals rfl

lemma validateE_status (p : Parsed) :
    (validateE p).status = p.status := by
  simp only [validateE]
  rw [vIssueReduce_status, vRangeCheck_status, vUnitCheck_status, vNameCheck_status]

lemma validateE_min (p : Parsed) :
    (validateE p).ref_range_min = p.ref_range_min := by
  simp only [validateE]
  rw [vIssueReduce_min, vRangeCheck_min, vUnitCheck_min, vNameCheck_min]

lemma validateE_max (p : Parsed) :
    (validateE p).ref_range_max = p.ref_range_max := by
  simp only [validateE]
  rw [vIssueReduce_max, vRangeCheck_max, vUnitCheck_max, vNameCheck_max]

lemma validateE_text (p : Parsed) :
    (validateE p).ref_range_text = p.ref_range_text := by
  simp only [validateE]
  rw [vIssueReduce_text, vRangeCheck_text, vUnitCheck_text, vNameCheck_text]

lemma validateE_value (p : Parsed) :
    (validateE p).value = p.value := by
  simp only [validateE]
  rw [vIssueReduce_value, vRangeCheck_value, vUnitCheck_value, vNameCheck_value]

lemma validateE_original_line (p : Parsed) :
    (validateE p).original_line = p.original_line := by
  simp only [validateE]
  rw [vIssueReduce_original_line, vRangeCheck_original_line, vUnitCheck_original_line, vNameCheck_original_line]

lemma validateE_test_name (p : Parsed) :
    (validateE p).test_name = p.test_name := by
  simp only [validateE]
  rw [vIssueReduce_test_name, vRangeCheck_test_name, vUnitCheck_test_name, vNameCheck_test_name]

lemma validateE_unit (p : Parsed) :
    (validateE p).unit = p.unit := by
  simp only [validateE]
  rw [vIssueReduce_unit, vRangeCheck_unit, vUnitCheck_unit, vNameCheck_unit]


lemma buildCore_value (b : Bool) (caps : Caps) (t n u : String) (v : ℚ) :
    (buildCore b caps t n u v).value = v := by
  simp only [buildCore]
  rw [applyAutoStatus_value, applyAbbrev_value, applyStatusTokens_value,
    applyNotEstab_value, applyRange_value]
  rfl

lemma buildCore_original_line (b : Bool) (caps : Caps) (t n u : String) (v : ℚ) :
    (buildCore b caps t n u v).original_line = t := by
  simp only [buildCore]
  rw [applyAutoStatus_original_line, applyAbbrev_original_line,
    applyStatusTokens_original_line, applyNotEstab_original_line,
    applyRange_original_line]
  rfl

lemma buildCore_conf_ge (b : Bool) (caps : Caps) (t n u : String) (v : ℚ) :
    1/2 ≤ (buildCore b caps t n u v).confidence := by
  simp only [buildCore]
  have h1 : (0:ℚ) ≤ (if u != "" then (1:ℚ)/5 else 0) := by split <;> norm_num
  have h2 : (0:ℚ) ≤ (if b then (3:ℚ)/10 else 0) := by split <;> norm_num
  refine le_min ?_ (by norm_num)
  calc (1/2 : ℚ)
      ≤ 1/2 + (if u != "" then (1:ℚ)/5 else 0) + (if b then (3:ℚ)/10 else 0) := by
        linarith
    _ ≤ _ := applyRange_conf_ge ..
    _ ≤ _ := applyNotEstab_conf_ge ..
    _ ≤ _ := applyStatusTokens_conf_ge ..
    _ ≤ _ := applyAbbrev_conf_ge ..
    _ = _ := (applyAutoStatus_conf ..).symm

lemma buildFromMatch_cases {b : Bool} {caps : Caps} {t : String} {p : Parsed}
    (h : buildFromMatch b caps t = some p) :
    ∃ m1 m2 v, mget caps 1 = some m1 ∧ mget caps 2 = some m2 ∧
      jsParseFloat (stripCommas m2) = some v ∧
      p = buildCore b caps t (stripTrailingPunct (jsTrim m1))
        (match mget caps 3 with
          | some m3 => jsTrim m3
          | none => "") v := by
  unfold buildFromMatch at h
  split at h
  · exact absurd h (by simp)
  · next m1 hm1 =>
    split at h
    · exact absurd h (by simp)
    · next m2 hm2 =>
      split at h
      · next m3 hm3 =>
        dsimp only at h
        split at h
        · exact absurd h (by simp)
        · split at h
          · exact absurd h (by simp)
          · next v hv =>
            exact ⟨m1, m2, v, hm1, hm2, hv, (Option.some.inj h).symm⟩
      · next hm3 =>
        dsimp only at h
        split at h
        · exact absurd h (by simp)
        · split at h
          · exact absurd h (by simp)
          · next v hv =>
            exact ⟨m1, m2, v, hm1, hm2, hv, (Option.some.inj h).symm⟩

lemma tryPat_some {b : Bool} {re : RE} {t : String} {next : Option Parsed}
    {p : Parsed} (h : tryPat b re t next = some p) :
    (∃ caps, execAnchored re t = some caps ∧ buildFromMatch b caps t = some p) ∨
      next = some p := by
  unfold tryPat at h
  split at h
  · next caps hcaps =>
    split at h
    · next q hq => exact Or.inl ⟨caps, hcaps, by rw [hq, h]⟩
    · exact Or.inr h
  · exact Or.inr h

lemma preParse_cases {t : String} {p : Parsed} (h : preParse t = some p) :
    (∃ caps, execAnchored FULL_PATTERN t = some caps ∧
      buildFromMatch true caps t = some p) ∨
    (∃ caps, execAnchored TABULAR_PATTERN t = some caps ∧
      buildFromMatch false caps t = some p) ∨
    (∃ caps, execAnchored SIMPLE_PATTERN t = some caps ∧
      buildFromMatch false caps t = some p) ∨
    (∃ caps, execAnchored CSV_PATTERN t = some caps ∧
      buildFromMatch false caps t = some p) ∨
    fallbackE t = some p := by
  unfold preParse at h
  split at h
  · next q hq =>
    rw [h] at hq
    unfold tryPatterns at hq
    rcases tryPat_some hq with h1 | h1
    · exact Or.inl h1
    rcases tryPat_some h1 with h2 | h2
    · exact Or.inr (Or.inl h2)
    rcases tryPat_some h2 with h3 | h3
    · exact Or.inr (Or.inr (Or.inl h3))
    rcases tryPat_some h3 with h4 | h4
    · exact Or.inr (Or.inr (Or.inr (Or.inl h4)))
    · exact absurd h4 (by simp)
  · exact Or.inr (Or.inr (Or.inr (Or.inr h)))

lemma fallbackE_cases {t : String} {p : Parsed} (h : fallbackE t = some p) :
    ∃ caps v, execAnchored FALLBACK_RE t = some caps ∧
      jsParseFloat (stripCommas ((mget caps 2).getD "")) = some v ∧
      p = { test_name := stripTrailingPunct (jsTrim ((mget caps 1).getD "")),
            abbreviation := none, canonical_test_name := none, value := v,
            unit := "", ref_range_min := none, ref_range_max := none,
            ref_range_text := none, status := none, category := none,
            loinc_code := none, original_line := t, confidence := 1/5,
            issues := ["Could not detect unit", "Could not detect reference range"] } := by
  unfold fallbackE at h
  split at h
  · exact absurd h (by simp)
  · next caps hcaps =>
    split at h
    · exact absurd h (by simp)
    · next v hv => exact ⟨caps, v, hcaps, hv, (Option.some.inj h).symm⟩

/-! ## Validator arithmetic -/

lemma vNameCheck_conf_le (p : Parsed) (h : 0 ≤ p.confidence) :
    (vNameCheck p).confidence ≤ p.confidence := by
  simp only [vNameCheck]; split
  · exact max_le h (by linarith)
  · exact le_refl _

lemma vUnitCheck_conf (p : Parsed) :
    (vUnitCheck p).confidence = p.confidence := by
  simp only [vUnitCheck]; split
  all_goals rfl

lemma vRangeCheck_conf (p : Parsed) :
    (vRangeCheck p).confidence = p.confidence := by
  simp only [vRangeCheck]; split
  all_goals rfl

lemma vIssueReduce_conf_le (p : Parsed) (c : ℚ) (h1 : 1/10 ≤ c)
    (h2 : p.confidence ≤ c) : (vIssueReduce p).confidence ≤ c := by
  simp only [vIssueReduce]; split
  · dsimp only
    refine max_le h1 ?_
    have h0 : (0:ℚ) ≤ min ((p.issues.length : ℚ) * (3/20)) (1/2) :=
      le_min (by positivity) (by norm_num)
    linarith
  · exact h2

lemma validateE_conf_le (p : Parsed) (h : 1/5 ≤ p.confidence) :
    (validateE p).confidence ≤ p.confidence := by
  simp only [validateE]
  refine vIssueReduce_conf_le _ _ (by linarith) ?_
  rw [vRangeCheck_conf, vUnitCheck_conf]
  exact vNameCheck_conf_le p (by linarith)

lemma preParse_conf_ge {t : String} {p : Parsed} (h : preParse t = some p) :
    1/5 ≤ p.confidence := by
  rcases preParse_cases h with ⟨caps, _, hb⟩ | ⟨caps, _, hb⟩ | ⟨caps, _, hb⟩ |
    ⟨caps, _, hb⟩ | hf
  case _ | _ | _ | _ =>
    obtain ⟨m1, m2, v, _, _, _, rfl⟩ := buildFromMatch_cases hb
    exact le_trans (by norm_num) (buildCore_conf_ge ..)
  case _ =>
    obtain ⟨caps, v, _, _, rfl⟩ := fallbackE_cases hf
    norm_num

lemma preParse_original_line {t : String} {p : Parsed} (h : preParse t = some p) :
    p.original_line = t := by
  rcases preParse_cases h with ⟨caps, _, hb⟩ | ⟨caps, _, hb⟩ | ⟨caps, _, hb⟩ |
    ⟨caps, _, hb⟩ | hf
  case _ | _ | _ | _ =>
    obtain ⟨m1, m2, v, _, _, _, rfl⟩ := buildFromMatch_cases hb
    exact buildCore_original_line ..
  case _ =>
    obtain ⟨caps, v, _, _, rfl⟩ := fallbackE_cases hf
    rfl

lemma vNameCheck_issues (p : Parsed) :
    (vNameCheck p).issues =
      if p.test_name.length < 2 then p.issues ++ ["Test name too short"]
      else p.issues := by
  simp only [vNameCheck]; split
  · simp_all
  · simp_all

lemma vIssueReduce_issues (p : Parsed) : (vIssueReduce p).issues = p.issues := by
  simp only [vIssueReduce]; split
  all_goals rfl

lemma validateE_issues_of_fallback (p : Parsed) (hu : p.unit = "")
    (hmin : p.ref_range_min = none) (hmax : p.ref_range_max = none)
    (htext : p.ref_range_text = none)
    (hiss : p.issues = ["Could not detect unit", "Could not detect reference range"]) :
    (validateE p).issues =
      if p.test_name.length < 2 then
        ["Could not detect unit", "Could not detect reference range",
          "Test name too short", "Unit not detected", "Reference range not detected"]
      else
        ["Could not detect unit", "Could not detect reference range",
          "Unit not detected", "Reference range not detected"] := by
  simp only [validateE, vIssueReduce_issues]
  have h1 := vNameCheck_issues p
  rw [hiss] at h1
  simp only [vRangeCheck, vUnitCheck, vNameCheck_min, vNameCheck_max,
    vNameCheck_text, vNameCheck_unit, hu, hmin, hmax, htext, h1,
    truthyNum, truthyStr]
  split
  · split <;> simp
  · next hcontra => simp at hcontra

/-! ## Range and status resolution -/


lemma applyRange_pair {caps : Caps} {s4 s5 : String} {mn mx : ℚ}
    (pc : Parsed × ℚ)
    (h4 : mget caps 4 = some s4) (h4ne : s4 ≠ "")
    (h5 : mget caps 5 = some s5) (h5ne : s5 ≠ "")
    (hmn : jsParseFloat (stripCommas s4) = some mn)
    (hmx : jsParseFloat (stripCommas s5) = some mx) :
    applyRange caps pc =
      ({ pc.1 with ref_range_min := some mn, ref_range_max := some mx },
        pc.2 + 1/5) := by
  simp [applyRange, h4, h5, truthyStr, h4ne, h5ne, hmn, hmx]

lemma stages_min (t nm : String) (pc : Parsed × ℚ) :
    (applyAutoStatus (applyAbbrev nm (applyStatusTokens t
      (applyNotEstab t pc)))).1.ref_range_min = pc.1.ref_range_min := by
  rw [applyAutoStatus_min, applyAbbrev_min, applyStatusTokens_min,
    applyNotEstab_min]

lemma stages_max (t nm : String) (pc : Parsed × ℚ) :
    (applyAutoStatus (applyAbbrev nm (applyStatusTokens t
      (applyNotEstab t pc)))).1.ref_range_max = pc.1.ref_range_max := by
  rw [applyAutoStatus_max, applyAbbrev_max, applyStatusTokens_max,
    applyNotEstab_max]

lemma stages_value (t nm : String) (pc : Parsed × ℚ) :
    (applyAutoStatus (applyAbbrev nm (applyStatusTokens t
      (applyNotEstab t pc)))).1.value = pc.1.value := by
  rw [applyAutoStatus_value, applyAbbrev_value, applyStatusTokens_value,
    applyNotEstab_value]

/-- With no explicit status token in the line and no status yet on the
record, the remaining stages derive the status from value vs. bounds. -/
lemma stages_status (t nm : String) (pc : Parsed × ℚ)
    (hbr : bracketStatusSearch t = none) (hw : wordStatusSearch t = none)
    (hst : pc.1.status = none) :
    (applyAutoStatus (applyAbbrev nm (applyStatusTokens t
      (applyNotEstab t pc)))).1.status =
      autoStatusOf pc.1.ref_range_min pc.1.ref_range_max pc.1.value := by
  rw [applyStatusTokens_of_none t _ hbr hw]
  simp only [applyAutoStatus]
  rw [applyAbbrev_status, applyNotEstab_status, hst,
    applyAbbrev_min, applyNotEstab_min, applyAbbrev_max, applyNotEstab_max,
    applyAbbrev_value, applyNotEstab_value]
  simp only [truthyStr, Bool.not_false, if_true]
  rcases hmin : pc.1.ref_range_min with _ | a <;>
    rcases hmax : pc.1.ref_range_max with _ | b <;>
      simp [autoStatusOf, applyAbbrev_status, applyNotEstab_status, hst]

lemma buildCore_min (b : Bool) (caps : Caps) (t nm un : String) (v : ℚ) :
    (buildCore b caps t nm un v).ref_range_min =
      (applyRange caps (initRecord t nm un v, seedConf b un)).1.ref_range_min := by
  simp only [buildCore]
  exact stages_min ..

lemma buildCore_max (b : Bool) (caps : Caps) (t nm un : String) (v : ℚ) :
    (buildCore b caps t nm un v).ref_range_max =
      (applyRange caps (initRecord t nm un v, seedConf b un)).1.ref_range_max := by
  simp only [buildCore]
  exact stages_max ..

lemma buildCore_status (b : Bool) (caps : Caps) (t nm un : String) (v : ℚ)
    (hbr : bracketStatusSearch t = none) (hw : wordStatusSearch t = none) :
    (buildCore b caps t nm un v).status =
      autoStatusOf
        ((applyRange caps (initRecord t nm un v, seedConf b un)).1.ref_range_min)
        ((applyRange caps (initRecord t nm un v, seedConf b un)).1.ref_range_max)
        ((applyRange caps (initRecord t nm un v, seedConf b un)).1.value) := by
  simp only [buildCore]
  refine stages_status _ _ _ hbr hw ?_
  rw [applyRange_status]
  rfl

lemma buildFromMatch_eq_some {b : Bool} {caps : Caps} {t m1 m2 : String} {v : ℚ}
    (h1 : mget caps 1 = some m1) (h2 : mget caps 2 = some m2)
    (hne : stripTrailingPunct (jsTrim m1) ≠ "") (hvs : stripCommas m2 ≠ "")
    (hv : jsParseFloat (stripCommas m2) = some v) :
    buildFromMatch b caps t =
      some (buildCore b caps t (stripTrailingPunct (jsTrim m1))
        (match mget caps 3 with
          | some m3 => jsTrim m3
          | none => "") v) := by
  simp [buildFromMatch, h1, h2, hne, hvs, hv]

lemma parseLineCore_of_full {t : String} {caps : Caps} {p : Parsed}
    (hfull : execAnchored FULL_PATTERN t = some caps)
    (hb : buildFromMatch true caps t = some p) :
    parseLineCore t = some (validateE p) := by
  simp [parseLineCore, preParse, tryPatterns, tryPat, hfull, hb]

lemma autoStatusOf_pair_normal {a b v : ℚ} :
    autoStatusOf (some a) (some b) v = some "normal" ↔ (a ≤ v ∧ v ≤ b) := by
  simp only [autoStatusOf]
  by_cases h1 : v > b
  · simp only [if_pos h1]
    constructor
    · intro h; exact absurd (Option.some.inj h) (by decide)
    · rintro ⟨_, h2⟩; linarith
  · simp only [if_neg h1]
    by_cases h2 : v < a
    · simp only [if_pos h2]
      constructor
      · intro h; exact absurd (Option.some.inj h) (by decide)
      · rintro ⟨h3, _⟩; linarith
    · simp only [if_neg h2]
      constructor
      · intro _; exact ⟨by linarith, by linarith⟩
      · intro _; trivial

lemma autoStatusOf_pair_high {a b v : ℚ} (h : b < v) :
    autoStatusOf (some a) (some b) v = some "high" := by
  simp [autoStatusOf, h]

lemma autoStatusOf_pair_low {a b v : ℚ} (h1 : v < a) (h2 : ¬ b < v) :
    autoStatusOf (some a) (some b) v = some "low" := by
  simp [autoStatusOf, h1, h2]

/-- Claim C1.  For every line matching the colon layout with a numeric
`(min-max)` range (captures 4 and 5), no explicit status token anywhere in
the line, and a non-degenerate range, the parsed record carries
`refRangeMin = min`, `refRangeMax = max`, and its status is `normal` iff
`min ≤ value ≤ max` (boundaries inclusive), `high` iff `value > max`, and
`low` when `value < min`.  (The high/low clauses presuppose `min ≤ max`;
for an inverted range they would contradict each other.) -/
theorem colon_layout_range_and_status
    {t : String} {caps : Caps} {m1 m2 s4 s5 : String} {v mn mx : ℚ}
    (hfull : execAnchored FULL_PATTERN t = some caps)
    (h1 : mget caps 1 = some m1) (hne : stripTrailingPunct (jsTrim m1) ≠ "")
    (h2 : mget caps 2 = some m2) (hvs : stripCommas m2 ≠ "")
    (hv : jsParseFloat (stripCommas m2) = some v)
    (h4 : mget caps 4 = some s4) (h4ne : s4 ≠ "")
    (h5 : mget caps 5 = some s5) (h5ne : s5 ≠ "")
    (hmn : jsParseFloat (stripCommas s4) = some mn)
    (hmx : jsParseFloat (stripCommas s5) = some mx)
    (hrange : mn ≤ mx)
    (hbr : bracketStatusSearch t = none) (hw : wordStatusSearch t = none) :
    ∃ r, parseLineCore t = some r ∧ r.value = v ∧
      r.ref_range_min = some mn ∧ r.ref_range_max = some mx ∧
      (r.status = some "normal" ↔ (mn ≤ v ∧ v ≤ mx)) ∧
      (mx < v → r.status = some "high") ∧
      (v < mn → r.status = some "low") := by
  have hb := buildFromMatch_eq_some (b := true) (t := t) h1 h2 hne hvs hv
  refine ⟨_, parseLineCore_of_full hfull hb, ?_, ?_, ?_, ?_, ?_, ?_⟩
  · rw [validateE_value, buildCore_value]
  · rw [validateE_min, buildCore_min, applyRange_pair _ h4 h4ne h5 h5ne hmn hmx]
  · rw [validateE_max, buildCore_max, applyRange_pair _ h4 h4ne h5 h5ne hmn hmx]
  · rw [validateE_status, buildCore_status _ _ _ _ _ _ hbr hw,
      applyRange_pair _ h4 h4ne h5 h5ne hmn hmx]
    exact autoStatusOf_pair_normal
  · intro hhigh
    rw [validateE_status, buildCore_status _ _ _ _ _ _ hbr hw,
      applyRange_pair _ h4 h4ne h5 h5ne hmn hmx]
    exact autoStatusOf_pair_high hhigh
  · intro hlow
    rw [validateE_status, buildCore_status _ _ _ _ _ _ hbr hw,
      applyRange_pair _ h4 h4ne h5 h5ne hmn hmx]
    refine autoStatusOf_pair_low hlow ?_
    simp only [initRecord]
    intro hc
    linarith


unseal Rat.mul Rat.add Rat.inv in
/-- Witness for C1 at the line `"Glucose: 85 mg/dL (70-100)"`. -/
theorem colon_layout_range_and_status_witness :
    ∃ r, parseLineCore "Glucose: 85 mg/dL (70-100)" = some r ∧
      r.value = 85 ∧ r.ref_range_min = some 70 ∧ r.ref_range_max = some 100 ∧
      r.status = some "normal" := by
  obtain ⟨r, hr, hv, hmin, hmax, hiff, _, _⟩ :=
    @colon_layout_range_and_status "Glucose: 85 mg/dL (70-100)" c1caps
      "Glucose" "85" "70" "100" 85 70 100
      (by decide) (by decide) (by decide) (by decide) (by decide) (by decide)
      (by decide) (by decide) (by decide) (by decide) (by decide) (by decide)
      (by norm_num) (by decide) (by decide)
  exact ⟨r, hr, hv, hmin, hmax, hiff.mpr (by norm_num)⟩

lemma applyNotEstab_of_text (t : String) (pc : Parsed × ℚ)
    (h : truthyStr pc.1.ref_range_text = true) : applyNotEstab t pc = pc := by
  simp [applyNotEstab, h]

lemma applyAbbrev_text (s : String) (pc : Parsed × ℚ) :
    (applyAbbrev s pc).1.ref_range_text = pc.1.ref_range_text := by
  simp only [applyAbbrev]; repeat' split
  all_goals rfl

lemma applyAutoStatus_text (pc : Parsed × ℚ) :
    (applyAutoStatus pc).1.ref_range_text = pc.1.ref_range_text := by
  simp only [applyAutoStatus]; repeat' split
  all_goals rfl

lemma applyRange_comp_le {caps : Caps} {s6 op numStr : String} {q : ℚ}
    {ccaps : Caps} (pc : Parsed × ℚ)
    (h45 : (truthyStr (mget caps 4) && truthyStr (mget caps 5)) = false)
    (h6 : mget caps 6 = some s6) (h6ne : s6 ≠ "")
    (hcomp : execAnchored COMP_RE (jsTrim s6) = some ccaps)
    (hop : mget ccaps 1 = some op) (hople : op = "<" ∨ op = "≤")
    (hnum : mget ccaps 2 = some numStr)
    (hq : jsParseFloat (stripCommas numStr) = some q) :
    applyRange caps pc =
      ({ pc.1 with
          ref_range_text := some (jsTrim s6), ref_range_max := some q },
        pc.2 + 1/10) := by
  have hcond : ¬((truthyStr (mget caps 4) && truthyStr (mget caps 5)) = true) := by
    simp [h45]
  have h6t : truthyStr (mget caps 6) = true := by simp [truthyStr, h6, h6ne]
  unfold applyRange
  rw [if_neg hcond, if_pos h6t]
  rcases hople with rfl | rfl <;>
    simp only [h6, Option.getD_some, hcomp, hnum, hq, hop] <;> simp

lemma applyRange_comp_ge {caps : Caps} {s6 op numStr : String} {q : ℚ}
    {ccaps : Caps} (pc : Parsed × ℚ)
    (h45 : (truthyStr (mget caps 4) && truthyStr (mget caps 5)) = false)
    (h6 : mget caps 6 = some s6) (h6ne : s6 ≠ "")
    (hcomp : execAnchored COMP_RE (jsTrim s6) = some ccaps)
    (hop : mget ccaps 1 = some op) (hopge : op = ">" ∨ op = "≥")
    (hnum : mget ccaps 2 = some numStr)
    (hq : jsParseFloat (stripCommas numStr) = some q) :
    applyRange caps pc =
      ({ pc.1 with
          ref_range_text := some (jsTrim s6), ref_range_min := some q },
        pc.2 + 1/10) := by
  have hcond : ¬((truthyStr (mget caps 4) && truthyStr (mget caps 5)) = true) := by
    simp [h45]
  have h6t : truthyStr (mget caps 6) = true := by simp [truthyStr, h6, h6ne]
  unfold applyRange
  rw [if_neg hcond, if_pos h6t]
  rcases hopge with rfl | rfl <;>
    simp only [h6, Option.getD_some, hcomp, hnum, hq, hop] <;> simp

lemma applyStatusTokens_text (t : String) (pc : Parsed × ℚ) :
    (applyStatusTokens t pc).1.ref_range_text = pc.1.ref_range_text := by
  simp only [applyStatusTokens]; repeat' split
  all_goals rfl

lemma applyRange_comp_text {caps : Caps} {s6 : String} (pc : Parsed × ℚ)
    (h45 : (truthyStr (mget caps 4) && truthyStr (mget caps 5)) = false)
    (h6 : mget caps 6 = some s6) (h6ne : s6 ≠ "") :
    (applyRange caps pc).1.ref_range_text = some (jsTrim s6) := by
  have hcond : ¬((truthyStr (mget caps 4) && truthyStr (mget caps 5)) = true) := by
    simp [h45]
  have h6t : truthyStr (mget caps 6) = true := by simp [truthyStr, h6, h6ne]
  unfold applyRange
  rw [if_neg hcond, if_pos h6t]
  simp only [h6, Option.getD_some]
  repeat' split
  all_goals simp

/-- Claim C3.  When the matched range sub-group (capture 6) is a comparison
expression `op number` and no explicit status token occurs in the line, the
record preserves the comparison text verbatim in `refRangeText`, sets
exactly the one bound selected by the operator (`<`/`≤` → max only,
`>`/`≥` → min only), and derives the status from that single bound. -/
theorem comparison_bound_resolution
    (b : Bool) (caps : Caps) (t nm un : String) (v : ℚ)
    {s6 op numStr : String} {q : ℚ} {ccaps : Caps}
    (h45 : (truthyStr (mget caps 4) && truthyStr (mget caps 5)) = false)
    (h6 : mget caps 6 = some s6) (h6ne : s6 ≠ "")
    (hcomp : execAnchored COMP_RE (jsTrim s6) = some ccaps)
    (hop : mget ccaps 1 = some op) (hnum : mget ccaps 2 = some numStr)
    (hq : jsParseFloat (stripCommas numStr) = some q)
    (hbr : bracketStatusSearch t = none) (hw : wordStatusSearch t = none) :
    (buildCore b caps t nm un v).ref_range_text = some (jsTrim s6) ∧
    ((op = "<" ∨ op = "≤") →
      (buildCore b caps t nm un v).ref_range_max = some q ∧
      (buildCore b caps t nm un v).ref_range_min = none ∧
      (buildCore b caps t nm un v).status =
        some (if q < v then "high" else "normal")) ∧
    ((op = ">" ∨ op = "≥") →
      (buildCore b caps t nm un v).ref_range_min = some q ∧
      (buildCore b caps t nm un v).ref_range_max = none ∧
      (buildCore b caps t nm un v).status =
        some (if v < q then "low" else "normal")) := by
  have htrimne : jsTrim s6 ≠ "" := by
    intro hc
    have hnone : execAnchored COMP_RE "" = none := by decide
    rw [hc, hnone] at hcomp
    exact Option.noConfusion hcomp
  have htext := applyRange_comp_text
    (initRecord t nm un v, seedConf b un) h45 h6 h6ne
  have htruthy :
      truthyStr (applyRange caps
        (initRecord t nm un v, seedConf b un)).1.ref_range_text = true := by
    rw [htext]; simp [truthyStr, htrimne]
  refine ⟨?_, ?_, ?_⟩
  · simp only [buildCore]
    rw [applyAutoStatus_text, applyAbbrev_text, applyStatusTokens_text,
      applyNotEstab_of_text _ _ htruthy, htext]
  · intro hople
    have heq := applyRange_comp_le
      (initRecord t nm un v, seedConf b un) h45 h6 h6ne hcomp hop hople hnum hq
    refine ⟨?_, ?_, ?_⟩
    · rw [buildCore_max, heq]
    · rw [buildCore_min, heq]
      rfl
    · rw [buildCore_status _ _ _ _ _ _ hbr hw, heq]
      rfl
  · intro hopge
    have heq := applyRange_comp_ge
      (initRecord t nm un v, seedConf b un) h45 h6 h6ne hcomp hop hopge hnum hq
    refine ⟨?_, ?_, ?_⟩
    · rw [buildCore_min, heq]
    · rw [buildCore_max, heq]
      rfl
    · rw [buildCore_status _ _ _ _ _ _ hbr hw, heq]
      rfl



unseal Rat.mul Rat.add Rat.inv in
/-- Witness for C3 at `"Eosinophile abs. 0.19 /nl < 0.41"` (the spec's own
round-trip example). -/
theorem comparison_bound_resolution_witness :
    ∃ r, parseLineCore "Eosinophile abs. 0.19 /nl < 0.41" = some r ∧
      r.ref_range_text = some "< 0.41" ∧ r.ref_range_max = some (41/100) ∧
      r.ref_range_min = none ∧ r.status = some "normal" := by
  obtain ⟨htext, hle, _⟩ :=
    @comparison_bound_resolution false c3caps "Eosinophile abs. 0.19 /nl < 0.41"
      "Eosinophile abs." "/nl" (19/100)
      "< 0.41" "<" "0.41" (41/100) c3ccaps
      (by decide) (by decide) (by decide) (by decide) (by decide) (by decide)
      (by decide) (by decide) (by decide)
  obtain ⟨hmax, hmin, hstat⟩ := hle (Or.inl rfl)
  refine ⟨validateE (buildCore false c3caps "Eosinophile abs. 0.19 /nl < 0.41"
    "Eosinophile abs." "/nl" (19/100)), by decide, ?_, ?_, ?_, ?_⟩
  · rw [validateE_text, htext]
    decide
  · rw [validateE_max]
    exact hmax
  · rw [validateE_min]
    exact hmin
  · rw [validateE_status, hstat]
    norm_num

unseal Rat.mul Rat.add Rat.inv in
/-- Claim C4 (code bug).  On the CSV line `"Glucose,125,mg/dL,70-100,Normal"`
the CSV pattern captures the whole range field `"70-100"` as group 4 and the
status field `"Normal"` as group 5, but the extraction code expects groups
4/5 to be min/max: `parseFloat("Normal")` is `NaN`, so the pair check fails
and neither `refRangeMin` nor `refRangeMax` is populated, and the record is
tagged `"Reference range not detected"`. -/
theorem csv_range_not_populated :
    (parseLineCore "Glucose,125,mg/dL,70-100,Normal").map
      (fun r => (r.ref_range_min, r.ref_range_max, r.status, r.issues)) =
    some (none, none, some "normal", ["Reference range not detected"]) := by
  decide

unseal Rat.mul Rat.add Rat.inv in
/-- Claim C5 (counterexample).  A fallback record is pre-seeded with
`"Could not detect unit"`, yet the Validator unconditionally appends the
distinct string `"Unit not detected"`, so the finalized issues list reports
the missing unit twice (under two wordings), not exactly once. -/
theorem missing_unit_reported_twice :
    (parseLineCore "Testname 5.0").map Parsed.issues =
      some ["Could not detect unit", "Could not detect reference range",
        "Unit not detected", "Reference range not detected"] := by
  decide

/-- Claim C5 (amended).  For every record produced by the Fallback Extractor,
the finalized issues list contains the Fallback's `"Could not detect unit"`
exactly once and the Validator's `"Unit not detected"` exactly once: the
missing unit is reported twice under two distinct wordings (the Validator
performs no duplicate check; the two strings merely differ). -/
theorem fallback_missing_unit_issue_counts {t : String} {p : Parsed}
    (h : fallbackE t = some p) :
    (validateE p).issues.count "Could not detect unit" = 1 ∧
    (validateE p).issues.count "Unit not detected" = 1 := by
  obtain ⟨caps, v, _, _, rfl⟩ := fallbackE_cases h
  rw [validateE_issues_of_fallback _ rfl rfl rfl rfl rfl]
  split
  · exact ⟨by decide, by decide⟩
  · exact ⟨by decide, by decide⟩

/-- Witness for the amended C5 at the fallback line `"Testname 5.0"`. -/
theorem fallback_missing_unit_issue_counts_witness :
    ∃ p, fallbackE "Testname 5.0" = some p ∧
      (validateE p).issues.count "Could not detect unit" = 1 ∧
      (validateE p).issues.count "Unit not detected" = 1 := by
  have hs : (fallbackE "Testname 5.0").isSome := by decide
  exact ⟨_, (Option.some_get hs).symm,
    fallback_missing_unit_issue_counts (Option.some_get hs).symm⟩

unseal Rat.mul Rat.add Rat.inv in
/-- Claim C6 (code bug).  On `"AB: 5 u (0-0) (Not Estab.)"` the numeric pair
`refRangeMin = refRangeMax = 0` is set, but the "Not Estab." check guards
with JavaScript truthiness (`!0` is `true`), so it also sets
`refRangeText = "Not Estab."`: the record carries a full numeric pair AND
unrelated free-form range text simultaneously, violating the claimed
exactly-one-of-three invariant. -/
theorem numeric_pair_coexists_with_not_estab_text :
    (parseLineCore "AB: 5 u (0-0) (Not Estab.)").map
      (fun r => (r.ref_range_min, r.ref_range_max, r.ref_range_text)) =
    some (some 0, some 0, some "Not Estab.") := by
  decide

unseal Rat.mul Rat.add Rat.inv in
/-- Claim C7 (counterexample).  `original_line` stores the *trimmed* line:
for the input line `" AB 5 u"` (leading space) the stored value is
`"AB 5 u"`, not the verbatim source line. -/
theorem original_line_not_verbatim :
    (processLine " AB 5 u").map Parsed.original_line = some "AB 5 u" ∧
    ¬ (processLine " AB 5 u").map Parsed.original_line = some " AB 5 u" := by
  exact ⟨by decide, by decide⟩

/-- Claim C7 (amended).  Every record's `original_line` equals the source line
with leading/trailing whitespace removed (`line.trim()`); it is verbatim
exactly when the line carries no surrounding whitespace. -/
theorem original_line_is_trimmed_line {line : String} {r : Parsed}
    (h : processLine line = some r) : r.original_line = jsTrim line := by
  unfold processLine at h
  dsimp only at h
  split at h
  · exact absurd h (by simp)
  · unfold parseLineCore at h
    obtain ⟨p, hp, hv⟩ := Option.map_eq_some'.mp h
    rw [← hv, validateE_original_line, preParse_original_line hp]

/-- Witness for the amended C7 at `" AB 5 u"`. -/
theorem original_line_is_trimmed_line_witness :
    ∃ r, processLine " AB 5 u" = some r ∧ r.original_line = jsTrim " AB 5 u" := by
  have hs : (processLine " AB 5 u").isSome := by decide
  exact ⟨_, (Option.some_get hs).symm,
    original_line_is_trimmed_line (Option.some_get hs).symm⟩

/-- Claim C8.  The Standard-Test Enricher never changes `test_name`; when the
lookup misses, the record is returned entirely unchanged (hence
`canonical_test_name` also stays `none` for parser records); when the lookup
hits, `canonical_test_name` is set to the catalog's canonical name. -/
theorem enrichment_frame (lookup : String → Option StandardizedTest)
    (c : Parsed) :
    (enrichOne lookup c).test_name = c.test_name ∧
    (lookup c.test_name = none → enrichOne lookup c = c) ∧
    (c.canonical_test_name = none → lookup c.test_name = none →
      (enrichOne lookup c).canonical_test_name = none) ∧
    (∀ st, lookup c.test_name = some st →
      (enrichOne lookup c).canonical_test_name = some st.test_name) := by
  refine ⟨?_, ?_, ?_, ?_⟩
  · simp only [enrichOne]
    repeat' split
    all_goals rfl
  · intro h
    simp [enrichOne, h]
  · intro hc h
    simp [enrichOne, h, hc]
  · intro st h
    simp only [enrichOne, h]
    repeat' split
    all_goals rfl




/-- Witness for C8: a concrete record against a hitting and a missing lookup. -/
theorem enrichment_frame_witness :
    (enrichOne lookup1 crec).test_name = crec.test_name ∧
    enrichOne (fun _ => none) crec = crec ∧
    (enrichOne lookup1 crec).canonical_test_name = some "Glucose" := by
  refine ⟨(enrichment_frame lookup1 crec).1,
    (enrichment_frame (fun _ => none) crec).2.1 rfl,
    (enrichment_frame lookup1 crec).2.2.2 glucoseEntry rfl⟩

/-- Claim C9.  The batch parse (including the enrichment pass) is a pure
function of the input text, the settings and the lookup: two runs on
identical inputs return identical component lists and the same failed-line
count.  (The embedding is total and reads no state outside its arguments,
mirroring the source, whose pattern table iteration order and searches are
all deterministic.) -/
theorem parse_deterministic (lookup : String → Option StandardizedTest)
    (st : Settings) (text : String) :
    (parseAll lookup st text).1 = (parseAll lookup st text).1 ∧
    (parseAll lookup st text).2 = (parseAll lookup st text).2 :=
  ⟨rfl, rfl⟩

unseal Rat.mul Rat.add Rat.inv in
/-- Claim C10 (counterexample).  `"Base Excess -2.5 mmol/L"` produces *no*
record at all: no pattern and not even the fallback regex can match a value
whose minus sign directly precedes the digits, so the line is counted as
failed rather than "returned as a positive value". -/
theorem negative_value_line_unparsed :
    parseLineCore "Base Excess -2.5 mmol/L" = none := by
  decide

/-! ## Soundness of the matcher: characterizing captured groups

`ConsumedOK re u` over-approximates "`re` can consume exactly `u`";
`groupOK n P re` says every group numbered `n` inside `re` only ever
consumes strings of characters satisfying `P`; `mrun_sound` pushes this
through the continuation-passing matcher. -/




lemma tryDesc_eq_some {κ : Type} {k : List Char → Caps → Option κ}
    {caps : Caps} {cs : List Char} :
    ∀ {i : Nat} {res : κ}, tryDesc k caps cs i = some res →
      ∃ j, j ≤ i ∧ k (cs.drop j) caps = some res := by
  intro i
  induction i with
  | zero =>
    intro res h
    exact ⟨0, le_rfl, by simpa using h⟩
  | succ i ih =>
    intro res h
    unfold tryDesc at h
    split at h
    · next heq => exact ⟨i+1, le_rfl, by rw [heq, h]⟩
    · obtain ⟨j, hj, hk⟩ := ih h
      exact ⟨j, Nat.le_succ_of_le hj, hk⟩

lemma tryDescPos_eq_some {κ : Type} {k : List Char → Caps → Option κ}
    {caps : Caps} {cs : List Char} :
    ∀ {i : Nat} {res : κ}, tryDescPos k caps cs i = some res →
      ∃ j, 1 ≤ j ∧ j ≤ i ∧ k (cs.drop j) caps = some res := by
  intro i
  induction i with
  | zero =>
    intro res h
    exact absurd h (by simp [tryDescPos])
  | succ i ih =>
    intro res h
    unfold tryDescPos at h
    split at h
    · next heq => exact ⟨i+1, Nat.succ_le_succ (Nat.zero_le _), le_rfl, by rw [heq, h]⟩
    · obtain ⟨j, hj1, hj, hk⟩ := ih h
      exact ⟨j, hj1, Nat.le_succ_of_le hj, hk⟩

lemma tryAsc_eq_some {κ : Type} {k : List Char → Caps → Option κ}
    {caps : Caps} {cs : List Char} :
    ∀ {fuel j : Nat} {res : κ}, tryAsc k caps cs j fuel = some res →
      ∃ m, j ≤ m ∧ m < j + fuel ∧ k (cs.drop m) caps = some res := by
  intro fuel
  induction fuel with
  | zero =>
    intro j res h
    exact absurd h (by simp [tryAsc])
  | succ fuel ih =>
    intro j res h
    unfold tryAsc at h
    split at h
    · next heq => exact ⟨j, le_rfl, by omega, by rw [heq, h]⟩
    · obtain ⟨m, hm1, hm2, hk⟩ := ih h
      exact ⟨m, by omega, by omega, hk⟩

lemma takeWhile_take_all {p : Char → Bool} :
    ∀ (cs : List Char) (j : Nat), j ≤ (cs.takeWhile p).length →
      (cs.take j).all p = true := by
  intro cs
  induction cs with
  | nil => intro j h; simp
  | cons c cs ih =>
    intro j h
    cases j with
    | zero => simp
    | succ j =>
      by_cases hp : p c = true
      · rw [List.takeWhile_cons, if_pos hp] at h
        simp only [List.length_cons, Nat.succ_le_succ_iff] at h
        simp [hp, ih j h]
      · rw [List.takeWhile_cons, if_neg hp] at h
        simp at h

theorem mrun_sound {κ : Type} (n : Nat) (P : Char → Bool) :
    ∀ (re : RE), groupOK n P re →
      ∀ (cs : List Char) (caps : Caps) (k : List Char → Caps → Option κ)
        (res : κ), CapsOK n P caps → mrun re cs caps k = some res →
        ∃ u rest caps2, cs = u ++ rest ∧ ConsumedOK re u ∧
          CapsOK n P caps2 ∧ k rest caps2 = some res := by
  intro re
  induction re with
  | eps =>
    intro _ cs caps k res hcaps h
    exact ⟨[], cs, caps, rfl, rfl, hcaps, h⟩
  | cls p =>
    intro _ cs caps k res hcaps h
    unfold mrun at h
    cases cs with
    | nil => simp at h
    | cons c rest =>
      dsimp only at h
      by_cases hp : p c = true
      · rw [if_pos hp] at h
        exact ⟨[c], rest, caps, rfl, ⟨c, rfl, hp⟩, hcaps, h⟩
      · rw [if_neg hp] at h
        exact absurd h (by simp)
  | cat a b iha ihb =>
    intro hok cs caps k res hcaps h
    unfold mrun at h
    obtain ⟨u1, rest1, caps1, hsp1, hc1, hcaps1, h1⟩ :=
      iha hok.1 cs caps _ res hcaps h
    obtain ⟨u2, rest, caps2, hsp2, hc2, hcaps2, h2⟩ :=
      ihb hok.2 rest1 caps1 _ res hcaps1 h1
    refine ⟨u1 ++ u2, rest, caps2, ?_, ⟨u1, u2, rfl, hc1, hc2⟩, hcaps2, h2⟩
    rw [hsp1, hsp2, List.append_assoc]
  | alt a b iha ihb =>
    intro hok cs caps k res hcaps h
    unfold mrun at h
    split at h
    · next r heq =>
      obtain ⟨u, rest, caps2, hsp, hc, hcaps2, hk⟩ :=
        iha hok.1 cs caps k r hcaps heq
      exact ⟨u, rest, caps2, hsp, Or.inl hc, hcaps2, by rw [hk, h]⟩
    · obtain ⟨u, rest, caps2, hsp, hc, hcaps2, hk⟩ :=
        ihb hok.2 cs caps k res hcaps h
      exact ⟨u, rest, caps2, hsp, Or.inr hc, hcaps2, hk⟩
  | optG a ih =>
    intro hok cs caps k res hcaps h
    unfold mrun at h
    split at h
    · next r heq =>
      obtain ⟨u, rest, caps2, hsp, hc, hcaps2, hk⟩ :=
        ih hok cs caps k r hcaps heq
      exact ⟨u, rest, caps2, hsp, Or.inl hc, hcaps2, by rw [hk, h]⟩
    · exact ⟨[], cs, caps, rfl, Or.inr rfl, hcaps, h⟩
  | starG p =>
    intro _ cs caps k res hcaps h
    unfold mrun at h
    obtain ⟨j, hj, hk⟩ := tryDesc_eq_some h
    exact ⟨cs.take j, cs.drop j, caps, (List.take_append_drop ..).symm,
      takeWhile_take_all cs j hj, hcaps, hk⟩
  | starL p =>
    intro _ cs caps k res hcaps h
    unfold mrun at h
    obtain ⟨m, _, hm2, hk⟩ := tryAsc_eq_some h
    exact ⟨cs.take m, cs.drop m, caps, (List.take_append_drop ..).symm,
      takeWhile_take_all cs m (by omega), hcaps, hk⟩
  | plusG p =>
    intro _ cs caps k res hcaps h
    unfold mrun at h
    obtain ⟨j, hj1, hj, hk⟩ := tryDescPos_eq_some h
    have hjcs : j ≤ cs.length :=
      le_trans hj (List.takeWhile_sublist (l := cs) p).length_le
    refine ⟨cs.take j, cs.drop j, caps, (List.take_append_drop ..).symm,
      ⟨takeWhile_take_all cs j hj, ?_⟩, hcaps, hk⟩
    intro hnil
    have : (cs.take j).length = j := by
      rw [List.length_take]; omega
    rw [hnil] at this
    simp at this
    omega
  | plusL p =>
    intro _ cs caps k res hcaps h
    unfold mrun at h
    obtain ⟨m, hm1, hm2, hk⟩ := tryAsc_eq_some h
    have hm : m ≤ (cs.takeWhile p).length := by omega
    have hmcs : m ≤ cs.length :=
      le_trans hm (List.takeWhile_sublist (l := cs) p).length_le
    refine ⟨cs.take m, cs.drop m, caps, (List.take_append_drop ..).symm,
      ⟨takeWhile_take_all cs m hm, ?_⟩, hcaps, hk⟩
    intro hnil
    have : (cs.take m).length = m := by
      rw [List.length_take]; omega
    rw [hnil] at this
    simp at this
    omega
  | group m a ih =>
    intro hok cs caps k res hcaps h
    unfold mrun at h
    obtain ⟨u, rest, caps2, hsp, hc, hcaps2, hk⟩ :=
      ih hok.2 cs caps _ res hcaps h
    have hlen : cs.length - rest.length = u.length := by
      rw [hsp]; simp
    have htake : cs.take u.length = u := by
      rw [hsp]; exact List.take_left ..
    rw [hlen, htake] at hk
    refine ⟨u, rest, capSet m u caps2, hsp, hc, ?_, hk⟩
    intro w hw
    by_cases hmn : m = n
    · subst hmn
      unfold capSet capFind at hw
      simp only [beq_self_eq_true, if_pos] at hw
      rw [← Option.some.inj hw]
      exact hok.1 rfl u hc
    · unfold capSet capFind at hw
      rw [if_neg (by simpa using hmn)] at hw
      exact hcaps2 w hw
  | endAnchor =>
    intro _ cs caps k res hcaps h
    unfold mrun at h
    cases cs with
    | nil => exact ⟨[], [], caps, rfl, rfl, hcaps, h⟩
    | cons c rest => simp at h

lemma execAnchored_capture {re : RE} {n : Nat} {P : Char → Bool} {s : String}
    {caps : Caps} {m : String} (hok : groupOK n P re)
    (h : execAnchored re s = some caps) (hm : mget caps n = some m) :
    m.toList.all P = true := by
  unfold execAnchored at h
  obtain ⟨pr, hpr, hpr2⟩ := Option.map_eq_some'.mp h
  unfold execAt at hpr
  obtain ⟨u, rest, caps2, _, _, hcapsok, hk⟩ :=
    mrun_sound n P re hok s.toList [] _ pr
      (fun u hu => absurd hu (by simp [capFind])) hpr
  have hcaps2 : caps = caps2 := by
    rw [← hpr2, ← Option.some.inj hk]
  unfold mget at hm
  obtain ⟨w, hw, hws⟩ := Option.map_eq_some'.mp hm
  have hall := hcapsok w (hcaps2 ▸ hw)
  rw [← hws]
  exact hall

lemma groupOK_seqL {n : Nat} {P : Char → Bool} {l : List RE}
    (h : ∀ re ∈ l, groupOK n P re) : groupOK n P (seqL l) := by
  induction l with
  | nil => trivial
  | cons a l ih =>
    exact ⟨h a (List.mem_cons_self ..), ih (fun re hre => h re (List.mem_cons_of_mem a hre))⟩

lemma groupOK_altL {n : Nat} {P : Char → Bool} {a : RE} {l : List RE}
    (ha : groupOK n P a) (h : ∀ re ∈ l, groupOK n P re) :
    groupOK n P (altL a l) := by
  induction l generalizing a with
  | nil => exact ha
  | cons b l ih =>
    exact ih ⟨ha, h b (List.mem_cons_self ..)⟩
      (fun re hre => h re (List.mem_cons_of_mem b hre))

lemma groupOK_istr (n : Nat) (P : Char → Bool) (s : String) :
    groupOK n P (istr s) := by
  refine groupOK_seqL ?_
  intro re hre
  obtain ⟨c, _, rfl⟩ := List.mem_map.mp hre
  trivial

lemma groupOK_group_ne {n m : Nat} {P : Char → Bool} {a : RE} (h : m ≠ n)
    (ha : groupOK n P a) : groupOK n P (.group m a) :=
  ⟨fun hc => absurd hc h, ha⟩

lemma groupOK_group_plus (n : Nat) (P : Char → Bool) :
    groupOK n P (.group n (.plusG P)) :=
  ⟨fun _ _ hu => hu.1, trivial⟩


lemma groupOK_of_no_group {n : Nat} {P : Char → Bool} :
    ∀ re : RE, hasGroup re = false → groupOK n P re := by
  intro re
  induction re with
  | cat a b iha ihb =>
    intro h
    simp only [hasGroup, Bool.or_eq_false_iff] at h
    exact ⟨iha h.1, ihb h.2⟩
  | alt a b iha ihb =>
    intro h
    simp only [hasGroup, Bool.or_eq_false_iff] at h
    exact ⟨iha h.1, ihb h.2⟩
  | optG a ih =>
    intro h
    exact ih h
  | group m a _ =>
    intro h
    exact absurd h (by simp [hasGroup])
  | _ => intro _; trivial

lemma groupOK_FULL : groupOK 2 numChar FULL_PATTERN := by
  unfold FULL_PATTERN
  refine groupOK_seqL ?_
  intro re hre
  simp only [List.mem_cons, List.not_mem_nil, or_false] at hre
  rcases hre with rfl | rfl | rfl | rfl | rfl | rfl | rfl | rfl
  · exact groupOK_group_ne (by decide) trivial
  · exact groupOK_of_no_group _ (by decide)
  · trivial
  · exact groupOK_group_plus ..
  · trivial
  · exact groupOK_group_ne (by decide) (groupOK_of_no_group _ (by decide))
  · trivial
  · refine groupOK_altL ?_ ?_
    · unfold rangePairBranch
      refine groupOK_seqL ?_
      intro re hre
      simp only [List.mem_cons, List.not_mem_nil, or_false] at hre
      rcases hre with rfl | rfl | rfl | rfl | rfl | rfl | rfl | rfl | rfl
      · exact groupOK_of_no_group _ (by decide)
      · exact groupOK_of_no_group _ (by decide)
      · exact groupOK_group_ne (by decide) trivial
      · trivial
      · trivial
      · trivial
      · exact groupOK_group_ne (by decide) trivial
      · trivial
      · exact groupOK_of_no_group _ (by decide)
    · intro re hre
      simp only [List.mem_cons, List.not_mem_nil, or_false] at hre
      rcases hre with rfl | rfl | rfl
      · unfold rangeCompBranch
        refine groupOK_seqL ?_
        intro re hre
        simp only [List.mem_cons, List.not_mem_nil, or_false] at hre
        rcases hre with rfl | rfl | rfl
        · exact groupOK_of_no_group _ (by decide)
        · exact groupOK_group_ne (by decide) (groupOK_of_no_group _ (by decide))
        · exact groupOK_of_no_group _ (by decide)
      · exact groupOK_of_no_group _ (by decide)
      · exact groupOK_group_ne (by decide) (groupOK_of_no_group _ (by decide))

lemma groupOK_TABULAR : groupOK 2 numChar TABULAR_PATTERN := by
  unfold TABULAR_PATTERN
  refine groupOK_seqL ?_
  intro re hre
  simp only [List.mem_cons, List.not_mem_nil, or_false] at hre
  rcases hre with rfl | rfl | rfl | rfl | rfl | rfl | rfl | rfl | rfl
  · exact groupOK_group_ne (by decide) trivial
  · trivial
  · exact groupOK_group_plus ..
  · trivial
  · exact groupOK_group_ne (by decide) (groupOK_of_no_group _ (by decide))
  · trivial
  · refine ⟨?_, ?_⟩
    · refine groupOK_seqL ?_
      intro re hre
      simp only [List.mem_cons, List.not_mem_nil, or_false] at hre
      rcases hre with rfl | rfl | rfl | rfl | rfl
      · exact groupOK_group_ne (by decide) trivial
      · trivial
      · trivial
      · trivial
      · exact groupOK_group_ne (by decide) trivial
    · exact groupOK_group_ne (by decide) (groupOK_of_no_group _ (by decide))
  · trivial
  · exact groupOK_group_ne (by decide) (groupOK_of_no_group _ (by decide))

lemma groupOK_SIMPLE : groupOK 2 numChar SIMPLE_PATTERN := by
  unfold SIMPLE_PATTERN
  refine groupOK_seqL ?_
  intro re hre
  simp only [List.mem_cons, List.not_mem_nil, or_false] at hre
  rcases hre with rfl | rfl | rfl | rfl | rfl
  · exact groupOK_group_ne (by decide) trivial
  · trivial
  · exact groupOK_group_plus ..
  · trivial
  · exact groupOK_group_ne (by decide) (groupOK_of_no_group _ (by decide))

lemma groupOK_CSV : groupOK 2 numChar CSV_PATTERN := by
  unfold CSV_PATTERN
  refine groupOK_seqL ?_
  intro re hre
  simp only [List.mem_cons, List.not_mem_nil, or_false] at hre
  rcases hre with rfl | rfl | rfl | rfl | rfl | rfl | rfl | rfl
  · exact groupOK_group_ne (by decide) trivial
  · trivial
  · exact groupOK_group_plus ..
  · trivial
  · exact groupOK_group_ne (by decide) (groupOK_of_no_group _ (by decide))
  · exact ⟨trivial, groupOK_group_ne (by decide) trivial⟩
  · exact ⟨trivial, groupOK_group_ne (by decide) trivial⟩
  · trivial

lemma groupOK_FALLBACK : groupOK 2 numChar FALLBACK_RE := by
  unfold FALLBACK_RE
  refine groupOK_seqL ?_
  intro re hre
  simp only [List.mem_cons, List.not_mem_nil, or_false] at hre
  rcases hre with rfl | rfl | rfl
  · exact groupOK_group_ne (by decide) trivial
  · trivial
  · exact groupOK_group_plus ..

lemma readSign_one {cs : List Char} (h : ∀ c ∈ cs, c ≠ '-') :
    (readSign cs).1 = 1 := by
  cases cs with
  | nil => rfl
  | cons c r =>
    have hc := h c (List.mem_cons_self ..)
    simp only [readSign, if_neg hc]
    split <;> rfl

lemma jsParseFloat_nonneg {s : String} (h : ∀ c ∈ s.toList, c ≠ '-') {q : ℚ}
    (hq : jsParseFloat s = some q) : 0 ≤ q := by
  have hsign : (readSign (s.toList.dropWhile jsWsChar)).1 = 1 :=
    readSign_one (fun c hc =>
      h c ((List.dropWhile_sublist (l := s.toList) jsWsChar).subset hc))
  unfold jsParseFloat at hq
  dsimp only at hq
  split at hq
  · exact absurd hq (by simp)
  · rw [hsign] at hq
    obtain rfl := Option.some.inj hq
    split
    · positivity
    · positivity

lemma numChar_no_minus {s : String} (hall : s.toList.all numChar = true) :
    ∀ c ∈ (stripCommas s).toList, c ≠ '-' := by
  intro c hc
  have hmem : c ∈ s.toList := by
    have he : (stripCommas s).toList = s.toList.filter (fun c => c != ',') := rfl
    rw [he] at hc
    exact List.mem_of_mem_filter hc
  have hnc : numChar c = true := by
    rw [List.all_eq_true] at hall
    exact hall c hmem
  intro hEq
  subst hEq
  exact absurd hnc (by decide)

lemma value_nonneg_of_line {t : String} {r : Parsed}
    (h : parseLineCore t = some r) : 0 ≤ r.value := by
  unfold parseLineCore at h
  obtain ⟨p, hp, rfl⟩ := Option.map_eq_some'.mp h
  rw [validateE_value]
  rcases preParse_cases hp with ⟨caps, hc, hb⟩ | ⟨caps, hc, hb⟩ |
    ⟨caps, hc, hb⟩ | ⟨caps, hc, hb⟩ | hf
  · obtain ⟨m1, m2, v, _, hm2, hv, rfl⟩ := buildFromMatch_cases hb
    rw [buildCore_value]
    exact jsParseFloat_nonneg
      (numChar_no_minus (execAnchored_capture groupOK_FULL hc hm2)) hv
  · obtain ⟨m1, m2, v, _, hm2, hv, rfl⟩ := buildFromMatch_cases hb
    rw [buildCore_value]
    exact jsParseFloat_nonneg
      (numChar_no_minus (execAnchored_capture groupOK_TABULAR hc hm2)) hv
  · obtain ⟨m1, m2, v, _, hm2, hv, rfl⟩ := buildFromMatch_cases hb
    rw [buildCore_value]
    exact jsParseFloat_nonneg
      (numChar_no_minus (execAnchored_capture groupOK_SIMPLE hc hm2)) hv
  · obtain ⟨m1, m2, v, _, hm2, hv, rfl⟩ := buildFromMatch_cases hb
    rw [buildCore_value]
    exact jsParseFloat_nonneg
      (numChar_no_minus (execAnchored_capture groupOK_CSV hc hm2)) hv
  · obtain ⟨caps, v, hc, hv, rfl⟩ := fallbackE_cases hf
    dsimp only
    cases hm2 : mget caps 2 with
    | none =>
      rw [hm2] at hv
      rw [show ((none : Option String).getD "") = "" from rfl] at hv
      rw [show jsParseFloat (stripCommas "") = none from rfl] at hv
      exact absurd hv (by simp)
    | some m2 =>
      rw [hm2] at hv
      rw [show ((some m2).getD "") = m2 from rfl] at hv
      exact jsParseFloat_nonneg
        (numChar_no_minus (execAnchored_capture groupOK_FALLBACK hc hm2)) hv

lemma enrichOne_value (lookup : String → Option StandardizedTest) (c : Parsed) :
    (enrichOne lookup c).value = c.value := by
  simp only [enrichOne]
  repeat' split
  all_goals rfl

lemma parseText_mem {st : Settings} {text : String} {r : Parsed}
    (h : r ∈ (parseText st text).1) : ∃ t, parseLineCore t = some r := by
  unfold parseText at h
  dsimp only at h
  suffices H : ∀ (l : List (Nat × String)) (acc : List Parsed × Nat),
      (∀ r' ∈ acc.1, ∃ t, parseLineCore t = some r') →
      ∀ r' ∈ (l.foldl (parseTextStep st) acc).1,
        ∃ t, parseLineCore t = some r' by
    exact H _ ([], 0) (by simp) r h
  intro l
  induction l with
  | nil =>
    intro acc hacc
    simpa using hacc
  | cons a l ih =>
    intro acc hacc r' hr'
    rw [List.foldl_cons] at hr'
    refine ih _ ?_ r' hr'
    intro r'' hr''
    unfold parseTextStep at hr''
    dsimp only at hr''
    split at hr''
    · exact hacc _ hr''
    · split at hr''
      · exact hacc _ hr''
      · split at hr''
        · next rec hrec =>
          rcases List.mem_append.mp hr'' with h1 | h1
          · exact hacc _ h1
          · rw [List.mem_singleton] at h1
            subst h1
            exact ⟨_, hrec⟩
        · exact hacc _ hr''




/-- Claim C2.  For every record produced by the extraction stage (pattern
loop or fallback), the validator / confidence finalizer never increases the
confidence: after the name-length, unit and range checks and the issue-count
reduction, the confidence is at most what it was before validation. -/
theorem validator_never_increases_confidence {t : String} {p : Parsed}
    (h : preParse t = some p) :
    (validateE p).confidence ≤ p.confidence :=
  validateE_conf_le p (preParse_conf_ge h)

unseal Rat.mul Rat.add Rat.inv Rat.sub in
/-- Witness for C2 at the line `"AB 5 u"`. -/
theorem validator_never_increases_confidence_witness :
    (validateE w2rec).confidence ≤ w2rec.confidence :=
  validator_never_increases_confidence (t := "AB 5 u") (p := w2rec) (by decide)

/-- Claim C10 (amended).  Every record in the batch parser's output (pattern
table or fallback, through enrichment) has a nonnegative value, because the
numeric-value groups of all five regexes only accept digits, periods and
commas, so no minus sign can reach `parseFloat`.  (The claim's example line
`"Base Excess -2.5 mmol/L"` in fact produces no record at all; see the
companion counterexample theorem.) -/
theorem parsed_value_nonneg (lookup : String → Option StandardizedTest)
    (st : Settings) (text : String) :
    ∀ r ∈ (parseAll lookup st text).1, 0 ≤ r.value := by
  intro r hr
  unfold parseAll at hr
  dsimp only at hr
  unfold enrichWithStandardizedTests at hr
  obtain ⟨c, hc, rfl⟩ := List.mem_map.mp hr
  rw [enrichOne_value]
  obtain ⟨t, ht⟩ := parseText_mem hc
  exact value_nonneg_of_line ht

unseal Rat.mul Rat.add Rat.inv Rat.sub in
/-- Witness for C10 on the one-line text `"AB 5 u"`. -/
theorem parsed_value_nonneg_witness : 0 ≤ w10rec.value :=
  parsed_value_nonneg (fun _ => none) w0settings "AB 5 u" w10rec (by decide)
end BulkEntry
